import Mathlib

/-!
Shallow embedding of the `lego_image_processor` core (color quantization,
layout grid, validation) and proofs of the specified properties.

The computable parts (placements, grids, validator, mask loading) are
translated over `Int`, `ℚ` and `String`; the floating-point color
mathematics (sRGB→Lab conversion, CIEDE2000) is translated over `ℝ`.
-/

namespace LegoProc

/-! ## Placements (`layout/position.py`) -/

/-- A single LEGO part placement, mirroring the frozen dataclass
`PositionPlacement` (fields only; validation is in `mkPositionPlacement`). -/
structure PositionPlacement where
  x : Int
  y : Int
  color_id : String
  color_name : String
  lego_color_code : String
  part_type : String
  lego_part_id : String
deriving DecidableEq, Repr

/-- Validating constructor, mirroring `PositionPlacement.__post_init__`:
the checks are performed in the same order as the Python code and the
first failing check raises (here: returns `Except.error`). -/
def mkPositionPlacement (x y : Int) (color_id color_name lego_color_code
    part_type lego_part_id : String) : Except String PositionPlacement :=
  if x < 0 then
    .error s!"x coordinate must be >= 0, got {x}"
  else if y < 0 then
    .error s!"y coordinate must be >= 0, got {y}"
  else if part_type ≠ "brick" ∧ part_type ≠ "tile" then
    .error s!"part_type must be brick or tile, got {part_type}"
  else if lego_part_id ≠ "3062b" ∧ lego_part_id ≠ "98138" then
    .error s!"lego_part_id must be 3062b or 98138, got {lego_part_id}"
  else if part_type = "brick" ∧ lego_part_id ≠ "3062b" then
    .error s!"part_type brick must use lego_part_id 3062b, got {lego_part_id}"
  else if part_type = "tile" ∧ lego_part_id ≠ "98138" then
    .error s!"part_type tile must use lego_part_id 98138, got {lego_part_id}"
  else
    .ok ⟨x, y, color_id, color_name, lego_color_code, part_type, lego_part_id⟩

/-- `PositionPlacement.to_dict`: the dictionary carries exactly the seven
fields, so it is represented by the same record. -/
def PositionPlacement.to_dict (p : PositionPlacement) : PositionPlacement := p

/-- `PositionPlacement.from_dict`: rebuilds a placement through the
validating constructor. -/
def PositionPlacement.from_dict (d : PositionPlacement) : Except String PositionPlacement :=
  mkPositionPlacement d.x d.y d.color_id d.color_name d.lego_color_code
    d.part_type d.lego_part_id

/-! ## Counting helpers (`collections.Counter` semantics) -/

/-- Number of occurrences of `c` in `l` (a `Counter` entry). -/
def countOf (l : List String) (c : String) : Nat :=
  (l.filter (fun s => s = c)).length

/-- The distinct keys of `l` in order of first occurrence — the iteration
order of a Python `dict` / `Counter` built by insertion. -/
def distinctKeys : List String → List String
  | [] => []
  | c :: rest => c :: distinctKeys (rest.filter (fun s => s ≠ c))
termination_by l => l.length
decreasing_by
  simp only [List.length_cons]
  exact Nat.lt_succ_of_le (rest.length_filter_le _)

/-- Monadic map over `Except`, used to model loops that may raise: either
every element is processed (in order) or the first failure aborts the
whole loop with no output. -/
def mapExcept {ε α β : Type} (f : α → Except ε β) : List α → Except ε (List β)
  | [] => .ok []
  | a :: as =>
    match f a with
    | .error e => .error e
    | .ok b =>
      match mapExcept f as with
      | .error e => .error e
      | .ok bs => .ok (b :: bs)

/-! ## Placement grid (`layout/grid.py`) -/

/-- `PositionPlacementGrid` constructor state: the stored fields.  The
derived values (`total_positions`, land/ocean counts, unique colors, the
position lookup map) are recomputed from `positions`, exactly as
`__init__`/`_compute_counts` derive them from the stored list. -/
structure PositionPlacementGrid where
  width : Int
  height : Int
  positions : List PositionPlacement
  source_image : String
  generated_at : String
  schema_version : String
deriving DecidableEq, Repr

namespace PositionPlacementGrid

/-- `total_positions` property: `width * height`. -/
def total_positions (g : PositionPlacementGrid) : Int := g.width * g.height

/-- `land_positions`: number of placements with `part_type == "brick"`. -/
def land_positions (g : PositionPlacementGrid) : Nat :=
  (g.positions.filter (fun p => p.part_type = "brick")).length

/-- `ocean_positions`: number of placements with `part_type == "tile"`. -/
def ocean_positions (g : PositionPlacementGrid) : Nat :=
  (g.positions.filter (fun p => p.part_type = "tile")).length

/-- `unique_colors`: number of distinct `color_id`s among the placements. -/
def unique_colors (g : PositionPlacementGrid) : Nat :=
  (distinctKeys (g.positions.map (fun p => p.color_id))).length

/-- `add_position`: appends to the list and updates the lookup index
(no bounds or duplicate check). -/
def add_position (g : PositionPlacementGrid) (p : PositionPlacement) :
    PositionPlacementGrid :=
  { g with positions := g.positions ++ [p] }

/-- `get_position`: the `(x, y) → placement` dictionary is built by
inserting every placement in list order, so a later placement at the same
coordinates overwrites an earlier one; lookup therefore returns the last
matching placement. -/
def get_position (g : PositionPlacementGrid) (x y : Int) :
    Option PositionPlacement :=
  g.positions.reverse.find? (fun p => p.x = x ∧ p.y = y)

end PositionPlacementGrid

/-- `LayoutStatistics` record (`compute_statistics` output). -/
structure LayoutStatistics where
  total_tile_count : Nat
  land_brick_count : Nat
  ocean_tile_count : Nat
  unique_colors : Nat
  color_frequency : List (String × Nat)
  color_frequency_by_part_type : List (String × Nat) × List (String × Nat)
  most_common_color : Option (String × String × Nat)
  coverage_percentage : ℚ
deriving DecidableEq, Repr

namespace PositionPlacementGrid

/-- Frequency table for a list of color ids, keys in first-occurrence
order (Counter-as-dict semantics). -/
def freqTable (ids : List String) : List (String × Nat) :=
  (distinctKeys ids).map (fun c => (c, countOf ids c))

/-- The most common color id: `Counter.most_common(1)` sorts by count
descending and is stable, so ties are broken by first insertion. -/
def mostCommonId (ids : List String) : Option String :=
  let keys := distinctKeys ids
  let best := (keys.map (countOf ids)).foldr max 0
  keys.find? (fun c => countOf ids c = best)

/-- `compute_statistics`, mirroring the Python method (empty-grid early
return, Counter-based frequencies, most-common lookup, coverage as
`len(positions) / (width*height) * 100`). -/
def compute_statistics (g : PositionPlacementGrid) : LayoutStatistics :=
  if g.positions = [] then
    { total_tile_count := 0, land_brick_count := 0, ocean_tile_count := 0
      unique_colors := 0, color_frequency := []
      color_frequency_by_part_type := ([], [])
      most_common_color := none, coverage_percentage := 0 }
  else
    let ids := g.positions.map (fun p => p.color_id)
    let brickIds := (g.positions.filter (fun p => p.part_type = "brick")).map
      (fun p => p.color_id)
    let tileIds := (g.positions.filter (fun p => p.part_type = "tile")).map
      (fun p => p.color_id)
    let mc := (mostCommonId ids).map (fun c =>
      (c, ((g.positions.find? (fun p => p.color_id = c)).map
        (fun p => p.color_name)).getD "", countOf ids c))
    let expected : Int := g.width * g.height
    let coverage : ℚ :=
      if expected > 0 then (g.positions.length : ℚ) / (expected : ℚ) * 100 else 0
    { total_tile_count := g.positions.length
      land_brick_count := g.land_positions
      ocean_tile_count := g.ocean_positions
      unique_colors := g.unique_colors
      color_frequency := freqTable ids
      color_frequency_by_part_type := (freqTable brickIds, freqTable tileIds)
      most_common_color := mc
      coverage_percentage := coverage }

end PositionPlacementGrid

/-- The `metadata` object of the full-document JSON form. -/
structure GridMetadata where
  width : Int
  height : Int
  total_positions : Int
  land_positions : Nat
  ocean_positions : Nat
  unique_colors : Nat
  generated_at : String
  source_image : String
  schema_version : String
  coordinate_system : String
deriving DecidableEq, Repr

/-- The full-document JSON form of a grid (`to_json` output, parsed). -/
structure GridJson where
  metadata : GridMetadata
  positions : List PositionPlacement
  statistics : LayoutStatistics
deriving DecidableEq, Repr

namespace PositionPlacementGrid

/-- `to_json`: serializes metadata, all placements (via `to_dict`) and the
computed statistics.  The JSON text layer (`json.dumps`) is modelled as
the identity on this document tree. -/
def to_json (g : PositionPlacementGrid) : GridJson :=
  { metadata :=
      { width := g.width, height := g.height
        total_positions := g.total_positions
        land_positions := g.land_positions
        ocean_positions := g.ocean_positions
        unique_colors := g.unique_colors
        generated_at := g.generated_at
        source_image := g.source_image
        schema_version := g.schema_version
        coordinate_system := "top_left_origin" }
    positions := g.positions.map PositionPlacement.to_dict
    statistics := g.compute_statistics }

/-- `from_json`: rebuilds every placement via `PositionPlacement.from_dict`
(which validates) and reconstructs the grid through the constructor, which
recomputes all derived counts from the placement list. -/
def from_json (j : GridJson) : Except String PositionPlacementGrid := do
  let positions ← mapExcept PositionPlacement.from_dict j.positions
  .ok { width := j.metadata.width
        height := j.metadata.height
        positions := positions
        source_image := j.metadata.source_image
        generated_at := j.metadata.generated_at
        schema_version := j.metadata.schema_version }

end PositionPlacementGrid

/-! ## Palette (`palette/loader.py`) -/

/-- `LegoColor` frozen dataclass. -/
structure LegoColor where
  id : Int
  name : String
  rgb : Int × Int × Int
  hex : String
deriving DecidableEq, Repr

/-- `LegoPalette`: an ordered list of colors (the id/name lookup maps are
derived and not needed by the verified operations). -/
structure LegoPalette where
  colors : List LegoColor
deriving DecidableEq, Repr

/-! ## Kit specification (`layout/kit_spec.py`) -/

/-- `LEGOWorldMapKitSpecification` dataclass.  The quantity dictionaries
are modelled as association lists with unique keys (parsed JSON objects). -/
structure LEGOWorldMapKitSpecification where
  kit_id : String
  kit_name : String
  base_plate_width : Int
  base_plate_height : Int
  total_positions : Int
  land_positions : Int
  ocean_positions : Int
  land_part_id : String
  ocean_part_id : String
  available_colors_brick : List String
  available_colors_tile : List String
  brick_quantities : List (String × Int)
  tile_quantities : List (String × Int)
deriving DecidableEq, Repr

namespace LEGOWorldMapKitSpecification

/-- Dictionary `get(key, 0)` over an association list. -/
def lookupQty (qs : List (String × Int)) (color_id : String) : Int :=
  ((qs.find? (fun e => e.1 = color_id)).map (fun e => e.2)).getD 0

/-- `is_brick_color_available`. -/
def is_brick_color_available (ks : LEGOWorldMapKitSpecification)
    (color_id : String) : Prop := color_id ∈ ks.available_colors_brick

/-- `is_tile_color_available`. -/
def is_tile_color_available (ks : LEGOWorldMapKitSpecification)
    (color_id : String) : Prop := color_id ∈ ks.available_colors_tile

/-- `get_brick_quantity`: available quantity, `0` if the color is absent. -/
def get_brick_quantity (ks : LEGOWorldMapKitSpecification)
    (color_id : String) : Int := lookupQty ks.brick_quantities color_id

/-- `get_tile_quantity`. -/
def get_tile_quantity (ks : LEGOWorldMapKitSpecification)
    (color_id : String) : Int := lookupQty ks.tile_quantities color_id

end LEGOWorldMapKitSpecification

/-! ## Layout validator (`layout/validator.py`) -/

/-- `ColorSuggestion`: nearest available substitute color.  The distance is
the Euclidean RGB distance (a square root), modelled over `ℝ`. -/
structure ColorSuggestion where
  color_id : String
  color_name : String
  color_distance : ℝ

/-- The two violation variants (`ColorUnavailableViolation`,
`QuantityExceededViolation`). -/
inductive Violation where
  | colorUnavailable (part_type part_id color_id color_name : String)
      (positions_required : Int) (suggested_alternative : Option ColorSuggestion)
  | quantityExceeded (part_type part_id color_id color_name : String)
      (positions_required kit_quantity shortfall : Int)

/-- `ValidationReport`.  The score is the exact rational value of the
Python float division `buildable_positions / total_positions`. -/
structure ValidationReport where
  buildable : Bool
  buildability_score : ℚ
  violations : List Violation
  validated_at : String
  kit_id : String
  layout_file : String

namespace LayoutValidator

/-- `_make_color_id`: lowercase, spaces and hyphens to underscores,
`lego_` prefix. -/
def make_color_id (color_name : String) : String :=
  "lego_" ++ ((color_name.toLower.replace " " "_").replace "-" "_")

/-- `_calculate_color_distance`: Euclidean distance between RGB triples. -/
noncomputable def calculate_color_distance (rgb1 rgb2 : Int × Int × Int) : ℝ :=
  Real.sqrt (((rgb1.1 - rgb2.1 : Int) ^ 2 + (rgb1.2.1 - rgb2.2.1 : Int) ^ 2 +
    (rgb1.2.2 - rgb2.2.2 : Int) ^ 2 : Int) : ℝ)

/-- The validator's `_color_by_id` map: colors are inserted in palette
order under `_make_color_id(name)`, so a later color with the same derived
id overwrites an earlier one. -/
def color_by_id (pal : LegoPalette) (color_id : String) : Option LegoColor :=
  pal.colors.reverse.find? (fun c => make_color_id c.name = color_id)

open Classical in
/-- `_find_nearest_color`: linear scan over the available color ids,
keeping the strictly closest candidate (`distance < best_distance`, with
`best_distance` starting at `inf` — modelled by the `none` accumulator). -/
noncomputable def find_nearest_color (pal : LegoPalette) (target_color_id : String)
    (available_colors : List String) : Option ColorSuggestion :=
  match color_by_id pal target_color_id with
  | none => none
  | some target =>
    (available_colors.foldl (fun (best : Option (ColorSuggestion × ℝ)) color_id =>
      match color_by_id pal color_id with
      | none => best
      | some candidate =>
        let distance := calculate_color_distance target.rgb candidate.rgb
        match best with
        | none => some (⟨color_id, candidate.name, distance⟩, distance)
        | some b =>
          if distance < b.2 then some (⟨color_id, candidate.name, distance⟩, distance)
          else best) none).map (fun b => b.1)

/-- One iteration of the per-category validation loop: given the multiset
of color ids used by that category, emit violations in `Counter` key order
and accumulate `total_violation_positions`. -/
noncomputable def validateCategory (pal : LegoPalette) (part_type part_id : String)
    (availColors : List String) (quantities : List (String × Int))
    (ids : List String) (colorName : String → String) :
    List Violation × Int :=
  (distinctKeys ids).foldl (fun acc c =>
    let count : Int := countOf ids c
    if c ∉ availColors then
      (acc.1 ++ [.colorUnavailable part_type part_id c (colorName c) count
          (find_nearest_color pal c availColors)],
        acc.2 + count)
    else
      let available := LEGOWorldMapKitSpecification.lookupQty quantities c
      if count > available then
        (acc.1 ++ [.quantityExceeded part_type part_id c (colorName c) count
            available (count - available)],
          acc.2 + (count - available))
      else acc) ([], 0)

/-- The `color_names` dictionary: built over all positions in order, so a
later position with the same color id overwrites the stored name;
`get(color_id, color_id)` defaults to the id itself. -/
def colorNameOf (layout : PositionPlacementGrid) (c : String) : String :=
  (((layout.positions.filter (fun p => p.color_id = c)).getLast?).map
    (fun p => p.color_name)).getD c

/-- The `brick_colors` counter contents: color ids of placements whose
`part_type` is `"brick"`. -/
def brickIdsOf (layout : PositionPlacementGrid) : List String :=
  (layout.positions.filter (fun p => p.part_type = "brick")).map
    (fun p => p.color_id)

/-- The `tile_colors` counter contents: the `else` branch of the counting
loop, i.e. every placement whose `part_type` is not `"brick"`. -/
def tileIdsOf (layout : PositionPlacementGrid) : List String :=
  (layout.positions.filter (fun p => ¬(p.part_type = "brick"))).map
    (fun p => p.color_id)

/-- `LayoutValidator.validate`: counts colors per part type (anything that
is not a brick counts as a tile, as in the `else` branch of the source),
emits color-availability and quantity violations for bricks then tiles,
and computes the buildability score.  The wall-clock timestamp is passed
in as `validated_at`. -/
noncomputable def validate (ks : LEGOWorldMapKitSpecification) (pal : LegoPalette)
    (layout : PositionPlacementGrid) (layout_file validated_at : String) :
    ValidationReport :=
  let bres := validateCategory pal "brick" ks.land_part_id ks.available_colors_brick
    ks.brick_quantities (brickIdsOf layout) (colorNameOf layout)
  let tres := validateCategory pal "tile" ks.ocean_part_id ks.available_colors_tile
    ks.tile_quantities (tileIdsOf layout) (colorNameOf layout)
  let violations := bres.1 ++ tres.1
  let total_violation_positions := bres.2 + tres.2
  let total_positions := layout.total_positions
  let buildable_positions := total_positions - total_violation_positions
  let buildability_score : ℚ :=
    if total_positions > 0 then (buildable_positions : ℚ) / (total_positions : ℚ)
    else 0
  { buildable := violations.isEmpty
    buildability_score := buildability_score
    violations := violations
    validated_at := validated_at
    kit_id := ks.kit_id
    layout_file := layout_file }

end LayoutValidator

/-! ## Land/sea mask (`layout/land_sea_mask.py`) -/

/-- `LandSeaMask`: the land coordinates are stored as a duplicate-free
list (the Python `set`). -/
structure LandSeaMask where
  width : Int
  height : Int
  land_positions : List (Int × Int)
  source : String
  extracted_date : String
deriving DecidableEq, Repr

namespace LandSeaMask

/-- `land_count` property. -/
def land_count (m : LandSeaMask) : Nat := m.land_positions.length

/-- `total_positions` property. -/
def total_positions (m : LandSeaMask) : Int := m.width * m.height

/-- `is_land`: raises `IndexError` out of bounds, otherwise a set
membership check. -/
def is_land (m : LandSeaMask) (x y : Int) : Except String Bool :=
  if x < 0 ∨ x ≥ m.width then
    .error s!"x coordinate {x} out of range"
  else if y < 0 ∨ y ≥ m.height then
    .error s!"y coordinate {y} out of range"
  else
    .ok ((x, y) ∈ m.land_positions)

end LandSeaMask

/-- The parsed JSON source of a mask, after the `data.get(key, default)`
accesses of `load_land_sea_mask` have been applied (the file/JSON layer is
external plumbing). -/
structure MaskSource where
  width : Int
  height : Int
  land_coordinates : List (List Int)
  land_positions : Int
  source : String
  extracted_date : String
deriving DecidableEq, Repr

/-- The coordinate-parsing loop of `load_land_sea_mask`: keep only
two-element list entries, collect them into a set (modelled as a
duplicate-free list). -/
def parseLandCoords (coords : List (List Int)) : List (Int × Int) :=
  (coords.filterMap (fun c =>
    match c with
    | [x, y] => some (x, y)
    | _ => none)).dedup

/-- `load_land_sea_mask` (after file reading): parse the coordinates and
fail with a `ValueError` when the parsed land-coordinate count differs
from the expected `land_positions` count embedded in the data. -/
def load_land_sea_mask (d : MaskSource) : Except String LandSeaMask :=
  let land := parseLandCoords d.land_coordinates
  if (land.length : Int) ≠ d.land_positions then
    .error s!"Land position count mismatch: expected {d.land_positions}, got {land.length}"
  else
    .ok { width := d.width, height := d.height, land_positions := land
          source := d.source, extracted_date := d.extracted_date }

/-! ## Layout generator (`layout/generator.py`) -/

/-- An RGB raster image: dimensions plus a pixel accessor
(`image.getpixel`), already normalized to 3-channel RGB. -/
structure Img where
  width : Nat
  height : Nat
  pix : Nat → Nat → Int × Int × Int

/-- The errors `LayoutGenerator.generate` can raise, each carrying the
data interpolated into the source's exception message. -/
inductive GenError where
  | dimensionMismatch (actualWidth actualHeight expectedWidth expectedHeight : Nat)
  | invalidColor (x y : Nat) (rgb : Int × Int × Int)
  | colorLookupFailed (x y : Nat) (rgb : Int × Int × Int)
  | maskIndexError (msg : String)
  | placementInvalid (msg : String)
deriving DecidableEq, Repr

namespace LayoutGenerator

/-- `EXPECTED_WIDTH`. -/
def EXPECTED_WIDTH : Nat := 128

/-- `EXPECTED_HEIGHT`. -/
def EXPECTED_HEIGHT : Nat := 80

/-- The generator's `_rgb_to_color` reverse lookup: colors are inserted in
palette order, later colors with the same RGB overwrite earlier ones. -/
def rgbToColor (pal : LegoPalette) (rgb : Int × Int × Int) : Option LegoColor :=
  pal.colors.reverse.find? (fun c => c.rgb = rgb)

/-- `_make_color_id` (same normalization as the validator's). -/
def make_color_id (color_name : String) : String :=
  "lego_" ++ ((color_name.toLower.replace " " "_").replace "-" "_")

/-- Row-major traversal order: `for y in range(h): for x in range(w)`. -/
def rowMajor (w h : Nat) : List (Nat × Nat) :=
  (List.range h).flatMap (fun y => (List.range w).map (fun x => (x, y)))

/-- `_validate_colors`: scan all pixels in row-major order and raise on
the first pixel whose RGB is not in the palette lookup. -/
def validateColors (pal : LegoPalette) (img : Img) : Except GenError (List Unit) :=
  mapExcept (fun xy =>
    if (rgbToColor pal (img.pix xy.1 xy.2)).isSome then .ok ()
    else .error (.invalidColor xy.1 xy.2 (img.pix xy.1 xy.2)))
    (rowMajor img.width img.height)

/-- The body of the generation loop for one cell: pixel → color lookup,
mask classification, placement construction. -/
def makeCell (pal : LegoPalette) (mask : LandSeaMask) (img : Img)
    (xy : Nat × Nat) : Except GenError PositionPlacement :=
  let rgb := img.pix xy.1 xy.2
  match rgbToColor pal rgb with
  | none => .error (.colorLookupFailed xy.1 xy.2 rgb)
  | some color =>
    match mask.is_land xy.1 xy.2 with
    | .error e => .error (.maskIndexError e)
    | .ok isLand =>
      match mkPositionPlacement xy.1 xy.2 (make_color_id color.name) color.name
        (toString color.id) (if isLand then "brick" else "tile")
        (if isLand then "3062b" else "98138") with
      | .error e => .error (.placementInvalid e)
      | .ok p => .ok p

/-- `LayoutGenerator.generate`: validate dimensions, validate colors, then
build one placement per cell in row-major order and wrap the result in a
grid.  `now` is the timestamp the grid constructor would default to. -/
def generate (pal : LegoPalette) (mask : LandSeaMask) (img : Img)
    (source_filename now : String) : Except GenError PositionPlacementGrid :=
  if img.width ≠ EXPECTED_WIDTH ∨ img.height ≠ EXPECTED_HEIGHT then
    .error (.dimensionMismatch img.width img.height EXPECTED_WIDTH EXPECTED_HEIGHT)
  else
    match validateColors pal img with
    | .error e => .error e
    | .ok _ =>
      match mapExcept (makeCell pal mask img) (rowMajor EXPECTED_WIDTH EXPECTED_HEIGHT) with
      | .error e => .error e
      | .ok positions =>
        .ok { width := EXPECTED_WIDTH, height := EXPECTED_HEIGHT
              positions := positions, source_image := source_filename
              generated_at := now, schema_version := "1.0" }

end LayoutGenerator

/-! ## Color space conversion (`palette/converter.py`), over `ℝ` -/

noncomputable section

/-- Python float `%`: result has the sign of the divisor
(`x % m = x - m*floor(x/m)`). -/
def fmod (x m : ℝ) : ℝ := x - m * ⌊x / m⌋

/-- `np.degrees`. -/
def degrees (r : ℝ) : ℝ := r * 180 / Real.pi

/-- `np.radians`. -/
def radians (d : ℝ) : ℝ := d * Real.pi / 180

/-- `np.arctan2(y, x)`: the argument of the point `(x, y)`, in `(-π, π]`,
with `arctan2 0 0 = 0`. -/
def arctan2 (y x : ℝ) : ℝ := Complex.arg ⟨x, y⟩

/-- `np.cbrt`: the real cube root, odd on negatives. -/
def cbrt (t : ℝ) : ℝ :=
  if t < 0 then -((-t) ^ ((1 : ℝ) / 3)) else t ^ ((1 : ℝ) / 3)

/-- A CIE L\*a\*b\* triple. -/
structure Lab where
  L : ℝ
  a : ℝ
  b : ℝ

/-- The sRGB inverse gamma applied to one normalized channel
(`rgb_to_xyz`'s piecewise `np.where`). -/
def gammaExpand (c : ℝ) : ℝ :=
  if c > 0.04045 then ((c + 0.055) / 1.055) ^ (2.4 : ℝ) else c / 12.92

/-- `rgb_to_xyz`: normalize to `[0,1]`, inverse gamma, fixed sRGB→XYZ
(D65) matrix, scale by 100. -/
def rgb_to_xyz (rgb : ℝ × ℝ × ℝ) : ℝ × ℝ × ℝ :=
  let rl := gammaExpand (rgb.1 / 255)
  let gl := gammaExpand (rgb.2.1 / 255)
  let bl := gammaExpand (rgb.2.2 / 255)
  ((0.4124564 * rl + 0.3575761 * gl + 0.1804375 * bl) * 100,
   (0.2126729 * rl + 0.7151522 * gl + 0.0721750 * bl) * 100,
   (0.0193339 * rl + 0.1191920 * gl + 0.9503041 * bl) * 100)

/-- The CIE `f` nonlinearity of `xyz_to_lab` (`np.where` with threshold
`epsilon = 0.008856`, `kappa = 903.3`). -/
def fLab (t : ℝ) : ℝ :=
  if t > 0.008856 then cbrt t else (903.3 * t + 16) / 116

/-- `xyz_to_lab`: divide by the D65 reference white, apply `f`, combine. -/
def xyz_to_lab (xyz : ℝ × ℝ × ℝ) : Lab :=
  let fx := fLab (xyz.1 / 95.047)
  let fy := fLab (xyz.2.1 / 100.000)
  let fz := fLab (xyz.2.2 / 108.883)
  ⟨116 * fy - 16, 500 * (fx - fy), 200 * (fy - fz)⟩

/-- `rgb_to_lab = xyz_to_lab ∘ rgb_to_xyz`. -/
def rgb_to_lab (rgb : ℝ × ℝ × ℝ) : Lab := xyz_to_lab (rgb_to_xyz rgb)

/-! ## CIEDE2000 (`delta_e_2000` in `core/color_quantizer.py`)

Each intermediate of the source is a named function of the ordered pair
`(p, q)` of Lab colors; the quantities the source computes for the second
color are the same functions applied to the swapped pair `(q, p)`. -/

/-- Chroma `C = sqrt(a² + b²)` of one color. -/
def chroma (p : Lab) : ℝ := Real.sqrt (p.a ^ 2 + p.b ^ 2)

/-- `G`, computed from the 7th power of the average chroma of the pair;
the same `G` adjusts both colors. -/
def gFactor (p q : Lab) : ℝ :=
  let cavg := (chroma p + chroma q) / 2
  0.5 * (1 - Real.sqrt (cavg ^ 7 / (cavg ^ 7 + 25 ^ 7)))

/-- `a_prime = (1 + G) * a` for one color, given the pair's `G`. -/
def aPrimeOf (G : ℝ) (p : Lab) : ℝ := (1 + G) * p.a

/-- `C_prime = sqrt(a_prime² + b²)` for one color, given the pair's `G`. -/
def cPrimeOf (G : ℝ) (p : Lab) : ℝ := Real.sqrt (aPrimeOf G p ^ 2 + p.b ^ 2)

/-- `h_prime = degrees(arctan2(b, a_prime)) % 360`, forced to `0` when the
adjusted chroma is zero (`np.where(C_prime == 0, 0, ·)`). -/
def hPrimeOf (G : ℝ) (p : Lab) : ℝ :=
  if cPrimeOf G p = 0 then 0 else fmod (degrees (arctan2 p.b (aPrimeOf G p))) 360

/-- `delta_L_prime = L2 - L1`. -/
def deltaLp (p q : Lab) : ℝ := q.L - p.L

/-- `delta_C_prime = C2' - C1'`. -/
def deltaCp (p q : Lab) : ℝ :=
  cPrimeOf (gFactor p q) q - cPrimeOf (gFactor p q) p

/-- `h_diff = h2' - h1'`. -/
def hDiff (p q : Lab) : ℝ :=
  hPrimeOf (gFactor p q) q - hPrimeOf (gFactor p q) p

/-- `delta_h_prime`: hue difference with ±180° wrap and the zero-chroma
override. -/
def dhSmall (p q : Lab) : ℝ :=
  if cPrimeOf (gFactor p q) p * cPrimeOf (gFactor p q) q = 0 then 0
  else if |hDiff p q| ≤ 180 then hDiff p q
  else if hDiff p q > 180 then hDiff p q - 360
  else hDiff p q + 360

/-- `delta_H_prime = 2*sqrt(C1'*C2')*sin(radians(delta_h_prime/2))`. -/
def dHBig (p q : Lab) : ℝ :=
  2 * Real.sqrt (cPrimeOf (gFactor p q) p * cPrimeOf (gFactor p q) q) *
    Real.sin (radians (dhSmall p q / 2))

/-- `L_prime_avg`. -/
def lAvg (p q : Lab) : ℝ := (p.L + q.L) / 2

/-- `C_prime_avg`. -/
def cAvgP (p q : Lab) : ℝ :=
  (cPrimeOf (gFactor p q) p + cPrimeOf (gFactor p q) q) / 2

/-- `h_sum = h1' + h2'`. -/
def hSum (p q : Lab) : ℝ :=
  hPrimeOf (gFactor p q) p + hPrimeOf (gFactor p q) q

/-- `h_prime_avg` with the same zero-chroma and wraparound handling. -/
def hAvg (p q : Lab) : ℝ :=
  if cPrimeOf (gFactor p q) p * cPrimeOf (gFactor p q) q = 0 then hSum p q
  else if |hDiff p q| ≤ 180 then hSum p q / 2
  else if hSum p q < 360 then (hSum p q + 360) / 2
  else (hSum p q - 360) / 2

/-- The trigonometric correction `T`. -/
def tFactor (p q : Lab) : ℝ :=
  1 - 0.17 * Real.cos (radians (hAvg p q - 30))
    + 0.24 * Real.cos (radians (2 * hAvg p q))
    + 0.32 * Real.cos (radians (3 * hAvg p q + 6))
    - 0.20 * Real.cos (radians (4 * hAvg p q - 63))

/-- `SL`. -/
def slW (p q : Lab) : ℝ :=
  1 + 0.015 * (lAvg p q - 50) ^ 2 / Real.sqrt (20 + (lAvg p q - 50) ^ 2)

/-- `SC`. -/
def scW (p q : Lab) : ℝ := 1 + 0.045 * cAvgP p q

/-- `SH`. -/
def shW (p q : Lab) : ℝ := 1 + 0.015 * cAvgP p q * tFactor p q

/-- `delta_theta`. -/
def deltaTheta (p q : Lab) : ℝ :=
  30 * Real.exp (-(((hAvg p q - 275) / 25) ^ 2))

/-- `RC`. -/
def rcFactor (p q : Lab) : ℝ :=
  2 * Real.sqrt (cAvgP p q ^ 7 / (cAvgP p q ^ 7 + 25 ^ 7))

/-- `RT`. -/
def rtFactor (p q : Lab) : ℝ :=
  -Real.sin (radians (2 * deltaTheta p q)) * rcFactor p q

/-- `delta_e_2000` with weighting factors `kL`, `kC`, `kH`. -/
def delta_e_2000 (p q : Lab) (kL kC kH : ℝ) : ℝ :=
  Real.sqrt ((deltaLp p q / (kL * slW p q)) ^ 2
    + (deltaCp p q / (kC * scW p q)) ^ 2
    + (dHBig p q / (kH * shW p q)) ^ 2
    + rtFactor p q * (deltaCp p q / (kC * scW p q))
        * (dHBig p q / (kH * shW p q)))

/-- `delta_e_2000` at the default weights `kL = kC = kH = 1.0`. -/
def deltaE00 (p q : Lab) : ℝ := delta_e_2000 p q 1 1 1

end

/-! ## Color quantizer (`core/color_quantizer.py`) -/

/-- `astype(np.uint8)` on one channel: wraparound modulo 256. -/
def u8 (n : Int) : Int := n % 256

/-- `astype(np.uint8)` on an RGB triple. -/
def u8RGB (rgb : Int × Int × Int) : Int × Int × Int :=
  (u8 rgb.1, u8 rgb.2.1, u8 rgb.2.2)

/-- An integer RGB triple viewed as the float triple numpy computes with. -/
def rgbReal (rgb : Int × Int × Int) : ℝ × ℝ × ℝ :=
  ((rgb.1 : ℝ), (rgb.2.1 : ℝ), (rgb.2.2 : ℝ))

/-- `rgb_to_lab` applied to an integer RGB triple. -/
noncomputable def labOfRGB (rgb : Int × Int × Int) : Lab :=
  rgb_to_lab (rgbReal rgb)

/-- `_precompute_palette_lab`: the cached `_palette_lab` array. -/
noncomputable def paletteLab (pal : LegoPalette) : List Lab :=
  pal.colors.map (fun c => labOfRGB c.rgb)

/-- `_precompute_palette_lab`: the cached `_palette_rgb` array
(`astype(np.uint8)`). -/
def paletteRGBu8 (pal : LegoPalette) : List (Int × Int × Int) :=
  pal.colors.map (fun c => u8RGB c.rgb)

/-- The distances of one query Lab color to every palette color
(`delta_e_2000(lab, self._palette_lab)` at default weights). -/
noncomputable def distancesTo (pal : LegoPalette) (lab : Lab) : List ℝ :=
  (paletteLab pal).map (fun pl => deltaE00 lab pl)

/-- `np.argmin`: index of the first occurrence of the minimal value
(`0` on an empty list, where numpy would raise). -/
noncomputable def argminIdx : List ℝ → Nat
  | [] => 0
  | [_] => 0
  | x :: y :: rest =>
    let j := argminIdx (y :: rest)
    if (y :: rest).getD j 0 < x then j + 1 else 0

/-- `ColorQuantizer.find_closest_color`: Lab-convert the query, `argmin`
over the distances to the palette, index into the palette colors
(`none` models the `np.argmin` failure on an empty palette). -/
noncomputable def find_closest_color (pal : LegoPalette) (rgb : Int × Int × Int) :
    Option LegoColor :=
  pal.colors.get? (argminIdx (distancesTo pal (labOfRGB rgb)))

/-- The image's pixel rows flattened in row-major (C) order
(`np.array(image).reshape(-1, 3)`). -/
def pixelList (img : Img) : List (Int × Int × Int) :=
  (LayoutGenerator.rowMajor img.width img.height).map (fun xy => img.pix xy.1 xy.2)

/-- Lexicographic row order used by `np.unique(..., axis=0)`. -/
def rgbLexLe (a b : Int × Int × Int) : Bool :=
  decide (a.1 < b.1) || (decide (a.1 = b.1) &&
    (decide (a.2.1 < b.2.1) || (decide (a.2.1 = b.2.1) && decide (a.2.2 ≤ b.2.2))))

/-- `np.unique(pixels.astype(np.uint8), axis=0)`: the distinct `uint8`
pixel rows, sorted lexicographically. -/
def uniqueColors (img : Img) : List (Int × Int × Int) :=
  (((pixelList img).map u8RGB).dedup).mergeSort rgbLexLe

/-- The batched closest-index loop of `quantize`: process the unique Lab
colors in batches of 1000, applying `np.argmin` row by row. -/
noncomputable def closestIndicesBatched (pal : LegoPalette) : List Lab → List Nat
  | [] => []
  | lab0 :: rest =>
    ((lab0 :: rest).take 1000).map (fun lab => argminIdx (distancesTo pal lab)) ++
      closestIndicesBatched pal ((lab0 :: rest).drop 1000)
termination_by labs => labs.length
decreasing_by
  simp only [List.length_drop, List.length_cons]
  omega

/-- The `inverse_indices` lookup of `np.unique`: the position of a (u8)
pixel color inside the unique-color table. -/
def idxOf (u : Int × Int × Int) (l : List (Int × Int × Int)) : Nat :=
  @List.indexOf (Int × Int × Int) instBEqOfDecidableEq u l

/-- `QuantizationResult`. -/
structure QuantizationResult where
  image : Img
  color_mapping : List ((Int × Int × Int) × LegoColor)
  original_colors : Nat
  mapped_colors : Nat

/-- The `color_mapping` dictionary built by `quantize`: each distinct
color maps to `palette.colors[closest_indices[i]]`. -/
noncomputable def quantizeMapping (pal : LegoPalette) (img : Img) :
    List ((Int × Int × Int) × LegoColor) :=
  ((uniqueColors img).zip
    (closestIndicesBatched pal ((uniqueColors img).map labOfRGB))).map
    (fun ui => (ui.1, pal.colors.getD ui.2 ⟨0, "", (0, 0, 0), ""⟩))

/-- The successful body of `ColorQuantizer.quantize`: dedup the pixels,
batch-compute the closest palette index per distinct color, map every
pixel through `mapped_rgb[inverse_indices]` (here: position of the pixel's
`uint8` color in the unique list), and package the result. -/
noncomputable def quantizeCore (pal : LegoPalette) (img : Img) : QuantizationResult :=
  let unique := uniqueColors img
  let closest := closestIndicesBatched pal (unique.map labOfRGB)
  let mappedRGB := closest.map (fun i => (paletteRGBu8 pal).getD i (0, 0, 0))
  { image :=
      { width := img.width, height := img.height
        pix := fun x y => mappedRGB.getD (idxOf (u8RGB (img.pix x y)) unique) (0, 0, 0) }
    color_mapping := quantizeMapping pal img
    original_colors := unique.length
    mapped_colors := closest.dedup.length }

/-- `ColorQuantizer.quantize`: `none` models the `np.argmin` failure on an
empty palette; otherwise the quantized result. -/
noncomputable def quantize (pal : LegoPalette) (img : Img) : Option QuantizationResult :=
  if pal.colors.isEmpty then none else some (quantizeCore pal img)

/-- An RGB triple whose channels are in the `uint8` range `[0, 255]` —
the data-model invariant of palette colors. -/
def rgbInRange (rgb : Int × Int × Int) : Prop :=
  0 ≤ rgb.1 ∧ rgb.1 < 256 ∧ 0 ≤ rgb.2.1 ∧ rgb.2.1 < 256 ∧
    0 ≤ rgb.2.2 ∧ rgb.2.2 < 256

instance (rgb : Int × Int × Int) : Decidable (rgbInRange rgb) := by
  unfold rgbInRange; infer_instance

/-! ## The invariant guaranteed by `mkPositionPlacement` -/

/-- The placement invariant established by `__post_init__`: non-negative
coordinates and the category/part-id bijection. -/
def PositionPlacement.Valid (p : PositionPlacement) : Prop :=
  0 ≤ p.x ∧ 0 ≤ p.y ∧
    ((p.part_type = "brick" ∧ p.lego_part_id = "3062b") ∨
     (p.part_type = "tile" ∧ p.lego_part_id = "98138"))

instance (p : PositionPlacement) : Decidable p.Valid := by
  unfold PositionPlacement.Valid; infer_instance

/-! ## Concrete data used by witnesses and counterexamples -/

/-- A concrete valid placement used by witnesses. -/
def wTilePlacement : PositionPlacement :=
  ⟨1, 2, "lego_red", "Red", "1", "tile", "98138"⟩

/-- A 1×1 grid already holding one placement at (0,0). -/
def wSmallGrid : PositionPlacementGrid :=
  ⟨1, 1, [⟨0, 0, "lego_red", "Red", "1", "tile", "98138"⟩], "img.png", "t", "1.0"⟩

/-- A second placement at the already-occupied coordinates (0,0). -/
def wDupPlacement : PositionPlacement :=
  ⟨0, 0, "lego_blue", "Blue", "2", "tile", "98138"⟩

/-- A concrete grid for the C8 witness. -/
def wRoundtripGrid : PositionPlacementGrid :=
  ⟨128, 80, [⟨3, 4, "lego_red", "Red", "1", "brick", "3062b"⟩, wTilePlacement],
    "img.png", "2024-01-01T00:00:00Z", "1.0"⟩

/-- A kit specification with empty color availability and quantities. -/
def wEmptyKit : LEGOWorldMapKitSpecification :=
  ⟨"31203", "LEGO World Map", 128, 80, 10240, 3062, 7178, "3062b", "98138",
    [], [], [], []⟩

/-- A 0×0 grid with no placements (`total_positions = 0`). -/
def wZeroGrid : PositionPlacementGrid := ⟨0, 0, [], "img.png", "t", "1.0"⟩

/-- A 1×1 grid holding two placements of a color unavailable in the kit —
more placements than grid positions. -/
def wOverfullGrid : PositionPlacementGrid :=
  ⟨1, 1, [⟨0, 0, "lego_red", "Red", "1", "tile", "98138"⟩,
          ⟨0, 0, "lego_red", "Red", "1", "tile", "98138"⟩], "img.png", "t", "1.0"⟩

/-- An empty palette. -/
def wEmptyPalette : LegoPalette := ⟨[]⟩

/-- A 100×80 image (wrong width) whose pixels are all black. -/
def wBadImg : Img := ⟨100, 80, fun _ _ => (0, 0, 0)⟩

/-- A 128×80 image whose pixels are all the palette red. -/
def wGoodImg : Img := ⟨128, 80, fun _ _ => (255, 0, 0)⟩

/-- A one-color palette whose only color is red `(255, 0, 0)`. -/
def wRedPalette : LegoPalette := ⟨[⟨1, "Red", (255, 0, 0), "#B40000"⟩]⟩

/-- A full-size mask with no land positions (everything is ocean). -/
def wOceanMask : LandSeaMask := ⟨128, 80, [], "src", "2021-01-01"⟩

/-- A 1×1 image with a single non-palette pixel. -/
def wQuantImg : Img := ⟨1, 1, fun _ _ => (3, 7, 9)⟩

/-! ## Violation bookkeeping for reasoning about `validate` -/

namespace LayoutValidator

/-- The violation (if any) that the per-category loop of `validate` emits
for one distinct color id. -/
noncomputable def keyViolation (pal : LegoPalette) (part_type part_id : String)
    (availColors : List String) (quantities : List (String × Int))
    (ids : List String) (colorName : String → String) (c : String) :
    Option Violation :=
  if c ∉ availColors then
    some (.colorUnavailable part_type part_id c (colorName c) (countOf ids c)
      (find_nearest_color pal c availColors))
  else
    let available := LEGOWorldMapKitSpecification.lookupQty quantities c
    if (countOf ids c : Int) > available then
      some (.quantityExceeded part_type part_id c (colorName c) (countOf ids c)
        available ((countOf ids c : Int) - available))
    else none

/-- The number of violating positions the loop adds to
`total_violation_positions` for one distinct color id. -/
def keyExcess (availColors : List String) (quantities : List (String × Int))
    (ids : List String) (c : String) : Int :=
  if c ∉ availColors then (countOf ids c : Int)
  else
    let available := LEGOWorldMapKitSpecification.lookupQty quantities c
    if (countOf ids c : Int) > available then (countOf ids c : Int) - available
    else 0

/-- `positions_required` of a color-unavailable violation, `shortfall` of
a quantity-exceeded one: the quantity the buildability score subtracts
per violation. -/
def violationWeight : Violation → Int
  | .colorUnavailable _ _ _ _ positions_required _ => positions_required
  | .quantityExceeded _ _ _ _ _ _ shortfall => shortfall

end LayoutValidator

lemma mkPositionPlacement_ok_iff (x y : Int)
    (cid cn lcc pt lpi : String) (p : PositionPlacement) :
    mkPositionPlacement x y cid cn lcc pt lpi = .ok p ↔
      (0 ≤ x ∧ 0 ≤ y ∧
        ((pt = "brick" ∧ lpi = "3062b") ∨ (pt = "tile" ∧ lpi = "98138")) ∧
        p = ⟨x, y, cid, cn, lcc, pt, lpi⟩) := by
  unfold mkPositionPlacement
  split_ifs with h1 h2 h3 h4 h5 h6 <;> simp_all
  all_goals tauto

lemma valid_from_dict_roundtrip (p : PositionPlacement) (h : p.Valid) :
    PositionPlacement.from_dict p.to_dict = .ok p := by
  obtain ⟨hx, hy, hmatch⟩ := h
  rw [PositionPlacement.to_dict, PositionPlacement.from_dict,
    mkPositionPlacement_ok_iff]
  exact ⟨hx, hy, hmatch, rfl⟩

/-- Mapping a pointwise-identity `Except` action over a list succeeds with
the same list. -/
lemma mapExcept_id_of_forall {ε α : Type} (f : α → Except ε α) :
    ∀ l : List α, (∀ a ∈ l, f a = .ok a) → mapExcept f l = .ok l := by
  intro l
  induction l with
  | nil => intro _; rfl
  | cons a as ih =>
    intro h
    have ha := h a (List.mem_cons_self a as)
    have has := ih (fun b hb => h b (List.mem_cons_of_mem a hb))
    simp [mapExcept, ha, has]

/-! ## C6 — placement construction validation -/

/-- C6: constructing a `PositionPlacement` fails whenever `part_type` and
`lego_part_id` are a mismatched pair ("brick" requires "3062b", "tile"
requires "98138") or a coordinate is negative; every successful
construction satisfies the category/part-id bijection and has
non-negative coordinates. -/
theorem position_placement_validation :
    (∀ (x y : Int) (cid cn lcc pt lpi : String),
      ((pt = "brick" ∧ lpi ≠ "3062b") ∨ (pt = "tile" ∧ lpi ≠ "98138") ∨
        x < 0 ∨ y < 0) →
      ∀ p, mkPositionPlacement x y cid cn lcc pt lpi ≠ .ok p) ∧
    (∀ (x y : Int) (cid cn lcc pt lpi : String) (p : PositionPlacement),
      mkPositionPlacement x y cid cn lcc pt lpi = .ok p →
      ((p.part_type = "brick" ↔ p.lego_part_id = "3062b") ∧
       (p.part_type = "tile" ↔ p.lego_part_id = "98138") ∧
       0 ≤ p.x ∧ 0 ≤ p.y)) := by
  constructor
  · intro x y cid cn lcc pt lpi hbad p hok
    rw [mkPositionPlacement_ok_iff] at hok
    obtain ⟨hx, hy, hmatch, _⟩ := hok
    rcases hbad with ⟨h1, h2⟩ | ⟨h1, h2⟩ | h | h
    · rcases hmatch with ⟨_, h⟩ | ⟨ht, _⟩
      · exact h2 h
      · rw [h1] at ht; exact absurd ht (by decide)
    · rcases hmatch with ⟨ht, _⟩ | ⟨_, h⟩
      · rw [h1] at ht; exact absurd ht (by decide)
      · exact h2 h
    · omega
    · omega
  · intro x y cid cn lcc pt lpi p hok
    rw [mkPositionPlacement_ok_iff] at hok
    obtain ⟨hx, hy, hmatch, hp⟩ := hok
    subst hp
    rcases hmatch with ⟨h1, h2⟩ | ⟨h1, h2⟩ <;> subst h1 <;> subst h2 <;>
      refine ⟨by simp, by simp, hx, hy⟩

/-- Witness for C6: a mismatched brick/"98138" pair is rejected, and a
concretely constructed tile placement satisfies the invariant. -/
theorem position_placement_validation_witness :
    (∀ p, mkPositionPlacement 0 0 "a" "b" "c" "brick" "98138" ≠ .ok p) ∧
    ((wTilePlacement.part_type = "brick" ↔ wTilePlacement.lego_part_id = "3062b") ∧
     (wTilePlacement.part_type = "tile" ↔ wTilePlacement.lego_part_id = "98138") ∧
     0 ≤ wTilePlacement.x ∧ 0 ≤ wTilePlacement.y) :=
  ⟨position_placement_validation.1 0 0 "a" "b" "c" "brick" "98138"
      (Or.inl ⟨rfl, by decide⟩),
   position_placement_validation.2 1 2 "lego_red" "Red" "1" "tile" "98138"
      wTilePlacement rfl⟩

/-! ## C10 — `add_position` performs no bounds or duplicate checks -/

/-- C10: `add_position` appends unconditionally (no bounds or duplicate
check): both entries at the same coordinates are retained in the list and
the lookup index maps the coordinates to the newer one; consequently the
placement count can exceed `width*height` and `compute_statistics` can
report a coverage percentage above 100. -/
theorem add_position_unchecked :
    (∀ (g : PositionPlacementGrid) (p : PositionPlacement),
      (g.add_position p).positions = g.positions ++ [p]) ∧
    (∀ (g : PositionPlacementGrid) (p : PositionPlacement),
      (g.add_position p).get_position p.x p.y = some p) ∧
    ((wSmallGrid.add_position wDupPlacement).positions.length = 2 ∧
     (wSmallGrid.add_position wDupPlacement).total_positions = 1 ∧
     (wSmallGrid.add_position wDupPlacement).get_position 0 0 =
        some wDupPlacement ∧
     wSmallGrid.positions.head? =
        some ⟨0, 0, "lego_red", "Red", "1", "tile", "98138"⟩ ∧
     (⟨0, 0, "lego_red", "Red", "1", "tile", "98138"⟩ : PositionPlacement) ∈
        (wSmallGrid.add_position wDupPlacement).positions ∧
     (wSmallGrid.add_position wDupPlacement).compute_statistics.coverage_percentage
        = 200) := by
  refine ⟨fun g p => rfl, fun g p => ?_, ?_⟩
  · simp [PositionPlacementGrid.add_position, PositionPlacementGrid.get_position,
      List.reverse_append]
  · refine ⟨by decide, by decide, by decide, by decide, by decide, ?_⟩
    rw [PositionPlacementGrid.compute_statistics, if_neg (by decide)]
    norm_num [PositionPlacementGrid.add_position, wSmallGrid, wDupPlacement]

/-! ## C9 — mask loading validates the land-coordinate count -/

/-- C9: `load_land_sea_mask` succeeds (producing a mask holding exactly the
parsed land set) precisely when the parsed land-coordinate count equals the
expected `land_positions` count embedded in the data, and never returns a
mask when the counts disagree. -/
theorem load_land_sea_mask_validates_count :
    ∀ d : MaskSource,
      ((∃ m, load_land_sea_mask d = .ok m ∧
          m.land_positions = parseLandCoords d.land_coordinates ∧
          m.width = d.width ∧ m.height = d.height) ↔
        ((parseLandCoords d.land_coordinates).length : Int) = d.land_positions) ∧
      (((parseLandCoords d.land_coordinates).length : Int) ≠ d.land_positions →
        ∀ m, load_land_sea_mask d ≠ .ok m) := by
  intro d
  constructor
  · constructor
    · rintro ⟨m, hok, -, -, -⟩
      by_contra hne
      rw [load_land_sea_mask] at hok
      simp [hne] at hok
    · intro heq
      refine ⟨⟨d.width, d.height, parseLandCoords d.land_coordinates,
        d.source, d.extracted_date⟩, ?_, rfl, rfl, rfl⟩
      simp only [load_land_sea_mask]
      rw [if_neg (not_not_intro heq)]
  · intro hne m hok
    rw [load_land_sea_mask] at hok
    simp [hne] at hok

/-- Witness for C9: a source claiming two land positions but listing one
coordinate is rejected; a consistent source loads. -/
theorem load_land_sea_mask_validates_count_witness :
    ((((parseLandCoords ([[0, 0]] : List (List Int))).length : Int) ≠ 2) ∧
      ∀ m, load_land_sea_mask ⟨128, 80, [[0, 0]], 2, "s", "d"⟩ ≠ .ok m) ∧
    (∃ m, load_land_sea_mask ⟨128, 80, [[0, 0], [5, 7]], 2, "s", "d"⟩ = .ok m ∧
      m.land_positions = parseLandCoords ([[0, 0], [5, 7]] : List (List Int)) ∧
      m.width = 128 ∧ m.height = 80) :=
  ⟨⟨by decide,
    (load_land_sea_mask_validates_count ⟨128, 80, [[0, 0]], 2, "s", "d"⟩).2
      (by decide)⟩,
   (load_land_sea_mask_validates_count ⟨128, 80, [[0, 0], [5, 7]], 2, "s", "d"⟩).1.mpr
      (by decide)⟩

/-! ## C8 — JSON round-trip fidelity of the placement grid -/

/-- C8: serializing a grid to the full JSON document and deserializing it
yields a grid with identical width, height, total/land/ocean position
counts and placement count (for grids whose placements satisfy the
constructor invariant, as every constructed placement does). -/
theorem grid_json_roundtrip :
    ∀ g : PositionPlacementGrid, (∀ p ∈ g.positions, p.Valid) →
      ∃ g', PositionPlacementGrid.from_json g.to_json = .ok g' ∧
        g'.width = g.width ∧ g'.height = g.height ∧
        g'.total_positions = g.total_positions ∧
        g'.land_positions = g.land_positions ∧
        g'.ocean_positions = g.ocean_positions ∧
        g'.positions.length = g.positions.length := by
  intro g hvalid
  have hmap : mapExcept PositionPlacement.from_dict
      (g.positions.map PositionPlacement.to_dict) = .ok g.positions := by
    have : g.positions.map PositionPlacement.to_dict = g.positions :=
      List.map_id g.positions
    rw [this]
    exact mapExcept_id_of_forall _ _
      (fun p hp => valid_from_dict_roundtrip p (hvalid p hp))
  refine ⟨g, ?_, rfl, rfl, rfl, rfl, rfl, rfl⟩
  have hmap2 : mapExcept PositionPlacement.from_dict g.to_json.positions
      = .ok g.positions := by
    rw [PositionPlacementGrid.to_json]; exact hmap
  unfold PositionPlacementGrid.from_json
  rw [hmap2]
  rfl

/-! ## Counting lemmas for the validator -/

lemma mem_distinctKeys (c : String) : ∀ l : List String,
    c ∈ distinctKeys l ↔ c ∈ l := by
  intro l
  induction l using distinctKeys.induct with
  | case1 => simp [distinctKeys]
  | case2 k rest ih =>
    rw [distinctKeys, List.mem_cons, ih, List.mem_filter]
    by_cases hc : c = k <;> simp [hc]

lemma countOf_cons (k c : String) (l : List String) :
    countOf (k :: l) c = (if k = c then 1 else 0) + countOf l c := by
  by_cases h : k = c <;> simp [countOf, List.filter_cons, h] <;> omega

lemma countOf_filter_ne {c k : String} (h : c ≠ k) :
    ∀ l : List String, countOf (l.filter (fun s => s ≠ k)) c = countOf l c := by
  intro l
  induction l with
  | nil => rfl
  | cons a as ih =>
    by_cases hak : a = k
    · subst hak
      rw [List.filter_cons, if_neg (by simp), ih, countOf_cons,
        if_neg (Ne.symm h)]
      simp
    · rw [List.filter_cons, if_pos (by simp [hak]), countOf_cons, ih,
        countOf_cons]

lemma countOf_pos_of_mem {c : String} {l : List String} (h : c ∈ l) :
    1 ≤ countOf l c := by
  have hm : c ∈ l.filter (fun s => s = c) := List.mem_filter.mpr ⟨h, by simp⟩
  have := List.length_pos.mpr (List.ne_nil_of_mem hm)
  simpa [countOf] using this

lemma length_filter_eq_ne (k : String) : ∀ l : List String,
    (l.filter (fun s => s = k)).length + (l.filter (fun s => s ≠ k)).length
      = l.length := by
  intro l
  induction l with
  | nil => rfl
  | cons a as ih =>
    simp only [List.filter_cons]
    by_cases h : a = k
    · rw [if_pos (by simp [h]), if_neg (by simp [h])]
      simp only [List.length_cons]
      omega
    · rw [if_neg (by simp [h]), if_pos (by simp [h])]
      simp only [List.length_cons]
      omega

lemma sum_countOf_distinctKeys : ∀ l : List String,
    ((distinctKeys l).map (fun c => (countOf l c : Int))).sum = l.length := by
  intro l
  induction l using distinctKeys.induct with
  | case1 => simp [distinctKeys]
  | case2 k rest ih =>
    rw [distinctKeys, List.map_cons, List.sum_cons]
    have hmap : (distinctKeys (rest.filter (fun s => s ≠ k))).map
        (fun c => (countOf (k :: rest) c : Int)) =
        (distinctKeys (rest.filter (fun s => s ≠ k))).map
        (fun c => (countOf (rest.filter (fun s => s ≠ k)) c : Int)) := by
      apply List.map_congr_left
      intro c hc
      have hc' : c ∈ rest.filter (fun s => s ≠ k) :=
        (mem_distinctKeys c _).mp hc
      have hck : c ≠ k := by simpa using (List.mem_filter.mp hc').2
      rw [countOf_cons, if_neg (Ne.symm hck), countOf_filter_ne hck]
      simp
    rw [hmap, ih]
    have hcnt : countOf (k :: rest) k = 1 + countOf rest k := by
      rw [countOf_cons, if_pos rfl]
    have hsplit : countOf rest k + (rest.filter (fun s => s ≠ k)).length
        = rest.length := length_filter_eq_ne k rest
    rw [hcnt]
    simp only [List.length_cons]
    push_cast
    omega

lemma length_filter_brick_split (l : List PositionPlacement) :
    (l.filter (fun p => p.part_type = "brick")).length +
      (l.filter (fun p => ¬(p.part_type = "brick"))).length = l.length := by
  induction l with
  | nil => rfl
  | cons a as ih =>
    simp only [List.filter_cons]
    by_cases h : a.part_type = "brick"
    · rw [if_pos (by simp [h]), if_neg (by simp [h])]
      simp only [List.length_cons]
      omega
    · rw [if_neg (by simp [h]), if_pos (by simp [h])]
      simp only [List.length_cons]
      omega

/-! ## Characterizing the `validate` fold -/

namespace LayoutValidator

lemma validateCategory_foldl (pal : LegoPalette) (part_type part_id : String)
    (availColors : List String) (quantities : List (String × Int))
    (ids : List String) (colorName : String → String) :
    ∀ (keys : List String) (acc : List Violation × Int),
      keys.foldl (fun acc c =>
        let count : Int := countOf ids c
        if c ∉ availColors then
          (acc.1 ++ [.colorUnavailable part_type part_id c (colorName c) count
              (find_nearest_color pal c availColors)],
            acc.2 + count)
        else
          let available := LEGOWorldMapKitSpecification.lookupQty quantities c
          if count > available then
            (acc.1 ++ [.quantityExceeded part_type part_id c (colorName c) count
                available (count - available)],
              acc.2 + (count - available))
          else acc) acc
      = (acc.1 ++ keys.filterMap
            (keyViolation pal part_type part_id availColors quantities ids colorName),
         acc.2 + (keys.map (keyExcess availColors quantities ids)).sum) := by
  intro keys
  induction keys with
  | nil => intro acc; simp
  | cons k ks ih =>
    intro acc
    rw [List.foldl_cons, ih, List.filterMap_cons, List.map_cons, List.sum_cons]
    simp only [keyViolation, keyExcess]
    by_cases hk : k ∈ availColors
    · by_cases hq : (countOf ids k : Int) >
          LEGOWorldMapKitSpecification.lookupQty quantities k
      · simp [hk, hq, add_assoc]
      · simp [hk, hq]
    · simp [hk, add_assoc]

lemma validateCategory_eq (pal : LegoPalette) (pt pid : String)
    (avail : List String) (qs : List (String × Int)) (ids : List String)
    (nm : String → String) :
    validateCategory pal pt pid avail qs ids nm =
      ((distinctKeys ids).filterMap (keyViolation pal pt pid avail qs ids nm),
       ((distinctKeys ids).map (keyExcess avail qs ids)).sum) := by
  rw [validateCategory, validateCategory_foldl]
  simp

lemma keyViolation_weight (pal : LegoPalette) (pt pid : String)
    (avail : List String) (qs : List (String × Int)) (ids : List String)
    (nm : String → String) (c : String) :
    ((keyViolation pal pt pid avail qs ids nm c).map violationWeight).getD 0
      = keyExcess avail qs ids c := by
  simp only [keyViolation, keyExcess]
  split_ifs <;> simp [violationWeight]

lemma sum_weight_filterMap {α : Type} (kv : α → Option Violation) (ke : α → Int)
    (h : ∀ a, ((kv a).map violationWeight).getD 0 = ke a) :
    ∀ keys : List α,
      ((keys.filterMap kv).map violationWeight).sum = (keys.map ke).sum := by
  intro keys
  induction keys with
  | nil => rfl
  | cons a as ih =>
    rw [List.filterMap_cons, List.map_cons, List.sum_cons, ← ih, ← h a]
    cases hkv : kv a <;> simp [hkv]

lemma keyExcess_nonneg (avail : List String) (qs : List (String × Int))
    (ids : List String) (c : String) : 0 ≤ keyExcess avail qs ids c := by
  simp only [keyExcess]
  split_ifs <;> omega

lemma lookupQty_nonneg {qs : List (String × Int)} (hqs : ∀ e ∈ qs, 0 ≤ e.2)
    (c : String) : 0 ≤ LEGOWorldMapKitSpecification.lookupQty qs c := by
  unfold LEGOWorldMapKitSpecification.lookupQty
  cases hfind : qs.find? (fun e => e.1 = c) with
  | none => simp
  | some e =>
    simp only [Option.map_some', Option.getD_some]
    exact hqs e (List.mem_of_find?_eq_some hfind)

lemma keyExcess_le_count (avail : List String) {qs : List (String × Int)}
    (hqs : ∀ e ∈ qs, 0 ≤ e.2) (ids : List String) (c : String) :
    keyExcess avail qs ids c ≤ (countOf ids c : Int) := by
  have hq := lookupQty_nonneg hqs c
  simp only [keyExcess]
  split_ifs <;> omega

lemma keyExcess_pos_of_violation (pal : LegoPalette) (pt pid : String)
    (avail : List String) (qs : List (String × Int)) (ids : List String)
    (nm : String → String) {c : String} (hc : c ∈ ids) {v : Violation}
    (h : keyViolation pal pt pid avail qs ids nm c = some v) :
    1 ≤ keyExcess avail qs ids c := by
  have hcount := countOf_pos_of_mem hc
  simp only [keyViolation] at h
  simp only [keyExcess]
  split_ifs at h ⊢ <;> first | omega | simp at h

lemma keyExcess_zero_of_no_violation (pal : LegoPalette) (pt pid : String)
    (avail : List String) (qs : List (String × Int)) (ids : List String)
    (nm : String → String) {c : String}
    (h : keyViolation pal pt pid avail qs ids nm c = none) :
    keyExcess avail qs ids c = 0 := by
  simp only [keyViolation] at h
  simp only [keyExcess]
  split_ifs at h ⊢ <;> first | rfl | simp at h

end LayoutValidator

/-- Witness for C8: the round-trip theorem applied to a concrete grid. -/
theorem grid_json_roundtrip_witness :
    (∀ p ∈ wRoundtripGrid.positions, p.Valid) ∧
    ∃ g', PositionPlacementGrid.from_json wRoundtripGrid.to_json = .ok g' ∧
      g'.width = wRoundtripGrid.width ∧ g'.height = wRoundtripGrid.height ∧
      g'.total_positions = wRoundtripGrid.total_positions ∧
      g'.land_positions = wRoundtripGrid.land_positions ∧
      g'.ocean_positions = wRoundtripGrid.ocean_positions ∧
      g'.positions.length = wRoundtripGrid.positions.length :=
  ⟨by decide, grid_json_roundtrip wRoundtripGrid (by decide)⟩

/-! ## C3 — buildability score -/

namespace LayoutValidator

lemma validate_violations (ks : LEGOWorldMapKitSpecification)
    (pal : LegoPalette) (layout : PositionPlacementGrid) (lf ts : String) :
    (validate ks pal layout lf ts).violations =
      (validateCategory pal "brick" ks.land_part_id ks.available_colors_brick
        ks.brick_quantities (brickIdsOf layout) (colorNameOf layout)).1 ++
      (validateCategory pal "tile" ks.ocean_part_id ks.available_colors_tile
        ks.tile_quantities (tileIdsOf layout) (colorNameOf layout)).1 := rfl

lemma validate_buildable_eq (ks : LEGOWorldMapKitSpecification)
    (pal : LegoPalette) (layout : PositionPlacementGrid) (lf ts : String) :
    (validate ks pal layout lf ts).buildable =
      (validate ks pal layout lf ts).violations.isEmpty := rfl

lemma validate_score_eq (ks : LEGOWorldMapKitSpecification)
    (pal : LegoPalette) (layout : PositionPlacementGrid) (lf ts : String) :
    (validate ks pal layout lf ts).buildability_score =
      if layout.total_positions > 0 then
        ((layout.total_positions -
          ((validateCategory pal "brick" ks.land_part_id ks.available_colors_brick
            ks.brick_quantities (brickIdsOf layout) (colorNameOf layout)).2 +
           (validateCategory pal "tile" ks.ocean_part_id ks.available_colors_tile
            ks.tile_quantities (tileIdsOf layout) (colorNameOf layout)).2) : Int) : ℚ)
          / ((layout.total_positions : Int) : ℚ)
      else 0 := rfl

end LayoutValidator

/-- C3 as stated is false: a grid with `total_positions = 0` yields a
report with no violations and `buildable = true` but score `0`, not `1`;
and a 1×1 grid with two placements of an unavailable color yields a score
of `-1`, outside `[0, 1]`. -/
theorem validate_score_counterexample :
    ((LayoutValidator.validate wEmptyKit wEmptyPalette wZeroGrid "f" "t").violations
        = [] ∧
     (LayoutValidator.validate wEmptyKit wEmptyPalette wZeroGrid "f" "t").buildable
        = true ∧
     (LayoutValidator.validate wEmptyKit wEmptyPalette wZeroGrid "f" "t").buildability_score
        = 0) ∧
    ((LayoutValidator.validate wEmptyKit wEmptyPalette wOverfullGrid "f" "t").violations
        ≠ [] ∧
     (LayoutValidator.validate wEmptyKit wEmptyPalette wOverfullGrid "f" "t").buildability_score
        = -1) := by
  have hviol0 : (LayoutValidator.validate wEmptyKit wEmptyPalette wZeroGrid
      "f" "t").violations = [] := by
    rw [LayoutValidator.validate_violations, LayoutValidator.validateCategory_eq,
      LayoutValidator.validateCategory_eq]
    simp [LayoutValidator.brickIdsOf, LayoutValidator.tileIdsOf, wZeroGrid,
      distinctKeys]
  refine ⟨⟨hviol0, ?_, ?_⟩, ?_, ?_⟩
  · rw [LayoutValidator.validate_buildable_eq, hviol0]
    rfl
  · rw [LayoutValidator.validate_score_eq]
    norm_num [wZeroGrid, PositionPlacementGrid.total_positions]
  · rw [LayoutValidator.validate_violations, LayoutValidator.validateCategory_eq,
      LayoutValidator.validateCategory_eq]
    simp [LayoutValidator.brickIdsOf, LayoutValidator.tileIdsOf, wOverfullGrid,
      wEmptyKit, distinctKeys, LayoutValidator.keyViolation]
  · have hb : LayoutValidator.brickIdsOf wOverfullGrid = [] := rfl
    have ht : LayoutValidator.tileIdsOf wOverfullGrid =
        ["lego_red", "lego_red"] := rfl
    have hd0 : distinctKeys ([] : List String) = [] := by simp [distinctKeys]
    have hd : distinctKeys ["lego_red", "lego_red"] = ["lego_red"] := by
      simp [distinctKeys]
    have hke : LayoutValidator.keyExcess [] [] ["lego_red", "lego_red"]
        "lego_red" = 2 := by decide
    rw [LayoutValidator.validate_score_eq, LayoutValidator.validateCategory_eq,
      LayoutValidator.validateCategory_eq, hb, ht, hd0, hd]
    rw [show wEmptyKit.available_colors_brick = [] from rfl,
      show wEmptyKit.available_colors_tile = [] from rfl,
      show wEmptyKit.brick_quantities = [] from rfl,
      show wEmptyKit.tile_quantities = [] from rfl]
    norm_num [hke, PositionPlacementGrid.total_positions, wOverfullGrid]

/-- C3 (amended): for every grid with at least one position and no more
placements than positions, validated against a kit whose quantities are
non-negative: `buildable` holds iff the violations list is empty; an empty
violations list gives score exactly 1; a nonempty one gives
`buildable = false` and score < 1; the score equals
`(total_positions - Σ violation weights) / total_positions` (weight =
`positions_required` for ColorUnavailable, `shortfall` for
QuantityExceeded) and lies in `[0, 1]`. -/
theorem validate_buildability_score :
    ∀ (ks : LEGOWorldMapKitSpecification) (pal : LegoPalette)
      (layout : PositionPlacementGrid) (lf ts : String),
      0 < layout.total_positions →
      (layout.positions.length : Int) ≤ layout.total_positions →
      (∀ e ∈ ks.brick_quantities, 0 ≤ e.2) →
      (∀ e ∈ ks.tile_quantities, 0 ≤ e.2) →
      ((LayoutValidator.validate ks pal layout lf ts).buildable = true ↔
        (LayoutValidator.validate ks pal layout lf ts).violations = []) ∧
      ((LayoutValidator.validate ks pal layout lf ts).violations = [] →
        (LayoutValidator.validate ks pal layout lf ts).buildability_score = 1) ∧
      ((LayoutValidator.validate ks pal layout lf ts).violations ≠ [] →
        (LayoutValidator.validate ks pal layout lf ts).buildable = false ∧
        (LayoutValidator.validate ks pal layout lf ts).buildability_score < 1) ∧
      (LayoutValidator.validate ks pal layout lf ts).buildability_score =
        ((layout.total_positions : ℚ) -
          ((((LayoutValidator.validate ks pal layout lf ts).violations.map
            LayoutValidator.violationWeight).sum : Int) : ℚ)) /
          ((layout.total_positions : Int) : ℚ) ∧
      0 ≤ (LayoutValidator.validate ks pal layout lf ts).buildability_score ∧
      (LayoutValidator.validate ks pal layout lf ts).buildability_score ≤ 1 := by
  intro ks pal layout lf ts htot hlen hbq htq
  have hBeq := LayoutValidator.validateCategory_eq pal "brick" ks.land_part_id
    ks.available_colors_brick ks.brick_quantities
    (LayoutValidator.brickIdsOf layout) (LayoutValidator.colorNameOf layout)
  have hTeq := LayoutValidator.validateCategory_eq pal "tile" ks.ocean_part_id
    ks.available_colors_tile ks.tile_quantities
    (LayoutValidator.tileIdsOf layout) (LayoutValidator.colorNameOf layout)
  set idsB := LayoutValidator.brickIdsOf layout with hidsB
  set idsT := LayoutValidator.tileIdsOf layout with hidsT
  set kvB := LayoutValidator.keyViolation pal "brick" ks.land_part_id
    ks.available_colors_brick ks.brick_quantities idsB
    (LayoutValidator.colorNameOf layout) with hkvB
  set kvT := LayoutValidator.keyViolation pal "tile" ks.ocean_part_id
    ks.available_colors_tile ks.tile_quantities idsT
    (LayoutValidator.colorNameOf layout) with hkvT
  set keB := LayoutValidator.keyExcess ks.available_colors_brick
    ks.brick_quantities idsB with hkeB
  set keT := LayoutValidator.keyExcess ks.available_colors_tile
    ks.tile_quantities idsT with hkeT
  set SB := ((distinctKeys idsB).map keB).sum with hSB
  set ST := ((distinctKeys idsT).map keT).sum with hST
  have hviol : (LayoutValidator.validate ks pal layout lf ts).violations =
      (distinctKeys idsB).filterMap kvB ++ (distinctKeys idsT).filterMap kvT := by
    rw [LayoutValidator.validate_violations, hBeq, hTeq]
  have hscore : (LayoutValidator.validate ks pal layout lf ts).buildability_score =
      ((layout.total_positions - (SB + ST) : Int) : ℚ) /
        ((layout.total_positions : Int) : ℚ) := by
    rw [LayoutValidator.validate_score_eq, hBeq, hTeq, if_pos htot]
  have htotQ : (0 : ℚ) < ((layout.total_positions : Int) : ℚ) := by
    exact_mod_cast htot
  have hSBnn : 0 ≤ SB := by
    refine List.sum_nonneg ?_
    intro x hx
    obtain ⟨c, -, rfl⟩ := List.mem_map.mp hx
    exact LayoutValidator.keyExcess_nonneg _ _ _ _
  have hSTnn : 0 ≤ ST := by
    refine List.sum_nonneg ?_
    intro x hx
    obtain ⟨c, -, rfl⟩ := List.mem_map.mp hx
    exact LayoutValidator.keyExcess_nonneg _ _ _ _
  have hSBle : SB ≤ (idsB.length : Int) := by
    calc SB ≤ ((distinctKeys idsB).map (fun c => (countOf idsB c : Int))).sum :=
          List.sum_le_sum (fun c _ =>
            LayoutValidator.keyExcess_le_count _ hbq _ c)
      _ = (idsB.length : Int) := sum_countOf_distinctKeys idsB
  have hSTle : ST ≤ (idsT.length : Int) := by
    calc ST ≤ ((distinctKeys idsT).map (fun c => (countOf idsT c : Int))).sum :=
          List.sum_le_sum (fun c _ =>
            LayoutValidator.keyExcess_le_count _ htq _ c)
      _ = (idsT.length : Int) := sum_countOf_distinctKeys idsT
  have hlenBT : idsB.length + idsT.length = layout.positions.length := by
    have := length_filter_brick_split layout.positions
    simpa [hidsB, hidsT, LayoutValidator.brickIdsOf, LayoutValidator.tileIdsOf]
      using this
  have hVle : SB + ST ≤ layout.total_positions := by
    have : SB + ST ≤ (idsB.length : Int) + (idsT.length : Int) :=
      add_le_add hSBle hSTle
    have h2 : ((idsB.length : Int) + (idsT.length : Int)) =
        (layout.positions.length : Int) := by exact_mod_cast hlenBT
    omega
  have hw : (((LayoutValidator.validate ks pal layout lf ts).violations.map
      LayoutValidator.violationWeight).sum) = SB + ST := by
    rw [hviol, List.map_append, List.sum_append,
      LayoutValidator.sum_weight_filterMap kvB keB
        (fun c => LayoutValidator.keyViolation_weight _ _ _ _ _ _ _ c),
      LayoutValidator.sum_weight_filterMap kvT keT
        (fun c => LayoutValidator.keyViolation_weight _ _ _ _ _ _ _ c)]
  have hzero : (LayoutValidator.validate ks pal layout lf ts).violations = [] →
      SB + ST = 0 := by
    intro h
    rw [hviol, List.append_eq_nil] at h
    obtain ⟨hB, hT⟩ := h
    have hBnone := List.filterMap_eq_nil_iff.mp hB
    have hTnone := List.filterMap_eq_nil_iff.mp hT
    have hSB0 : SB = 0 := by
      refine List.sum_eq_zero ?_
      intro x hx
      obtain ⟨c, hc, rfl⟩ := List.mem_map.mp hx
      rw [hkeB]
      exact LayoutValidator.keyExcess_zero_of_no_violation _ _ _ _ _ _ _
        (hBnone c hc)
    have hST0 : ST = 0 := by
      refine List.sum_eq_zero ?_
      intro x hx
      obtain ⟨c, hc, rfl⟩ := List.mem_map.mp hx
      rw [hkeT]
      exact LayoutValidator.keyExcess_zero_of_no_violation _ _ _ _ _ _ _
        (hTnone c hc)
    omega
  have hone : (LayoutValidator.validate ks pal layout lf ts).violations ≠ [] →
      1 ≤ SB + ST := by
    intro h
    rw [hviol, Ne, List.append_eq_nil, not_and_or] at h
    have hpart : ∀ (ids : List String)
        (kv : String → Option Violation) (ke : String → Int),
        (∀ c, ((kv c).map LayoutValidator.violationWeight).getD 0 = ke c) →
        (∀ c ∈ ids, ∀ v, kv c = some v → 1 ≤ ke c) →
        (∀ c, 0 ≤ ke c) →
        (distinctKeys ids).filterMap kv ≠ [] →
        1 ≤ ((distinctKeys ids).map ke).sum := by
      intro ids kv ke _ hpos hnn hne
      obtain ⟨v, hv⟩ := List.exists_mem_of_ne_nil _ hne
      obtain ⟨c, hc, hkvc⟩ := List.mem_filterMap.mp hv
      have hcids : c ∈ ids := (mem_distinctKeys c ids).mp hc
      have h1 : 1 ≤ ke c := hpos c hcids v hkvc
      have h2 : ke c ≤ ((distinctKeys ids).map ke).sum := by
        refine List.single_le_sum ?_ _ (List.mem_map_of_mem ke hc)
        intro x hx
        obtain ⟨d, -, rfl⟩ := List.mem_map.mp hx
        exact hnn d
      omega
    rcases h with hB | hT
    · have := hpart idsB kvB keB
        (fun c => LayoutValidator.keyViolation_weight _ _ _ _ _ _ _ c)
        (fun c hc v hv => LayoutValidator.keyExcess_pos_of_violation
          _ _ _ _ _ _ _ hc hv)
        (fun c => LayoutValidator.keyExcess_nonneg _ _ _ _) hB
      omega
    · have := hpart idsT kvT keT
        (fun c => LayoutValidator.keyViolation_weight _ _ _ _ _ _ _ c)
        (fun c hc v hv => LayoutValidator.keyExcess_pos_of_violation
          _ _ _ _ _ _ _ hc hv)
        (fun c => LayoutValidator.keyExcess_nonneg _ _ _ _) hT
      omega
  refine ⟨?_, ?_, ?_, ?_, ?_, ?_⟩
  · rw [LayoutValidator.validate_buildable_eq]
    exact List.isEmpty_iff
  · intro h
    rw [hscore, hzero h]
    rw [sub_zero]
    exact div_self htotQ.ne'
  · intro h
    constructor
    · rw [LayoutValidator.validate_buildable_eq]
      exact List.isEmpty_eq_false.mpr h
    · rw [hscore]
      rw [div_lt_one htotQ]
      have h1 := hone h
      have : ((layout.total_positions - (SB + ST) : Int) : ℚ) =
          ((layout.total_positions : Int) : ℚ) - ((SB + ST : Int) : ℚ) := by
        push_cast; ring
      rw [this]
      have : (1 : ℚ) ≤ ((SB + ST : Int) : ℚ) := by exact_mod_cast h1
      linarith
  · rw [hscore, hw]
    push_cast
    ring
  · rw [hscore]
    apply div_nonneg _ htotQ.le
    have : (0 : Int) ≤ layout.total_positions - (SB + ST) := by omega
    exact_mod_cast this
  · rw [hscore, div_le_one htotQ]
    have : (layout.total_positions - (SB + ST) : Int) ≤ layout.total_positions := by
      omega
    exact_mod_cast this

/-! ## C7 — generation is all-or-nothing -/

lemma mapExcept_ok_length {ε α β : Type} (f : α → Except ε β) :
    ∀ (l : List α) (bs : List β), mapExcept f l = .ok bs →
      bs.length = l.length := by
  intro l
  induction l with
  | nil => intro bs h; cases h; rfl
  | cons a as ih =>
    intro bs h
    rw [mapExcept] at h
    cases hfa : f a with
    | error e => rw [hfa] at h; exact absurd h (by simp)
    | ok b =>
      rw [hfa] at h
      cases hm : mapExcept f as with
      | error e => rw [hm] at h; exact absurd h (by simp)
      | ok bs' =>
        rw [hm] at h
        cases h
        simp [ih bs' hm]

lemma mapExcept_ok_mem {ε α β : Type} (f : α → Except ε β) :
    ∀ (l : List α) (bs : List β), mapExcept f l = .ok bs →
      ∀ a ∈ l, ∃ b ∈ bs, f a = .ok b := by
  intro l
  induction l with
  | nil => intro bs _ a ha; exact absurd ha (List.not_mem_nil a)
  | cons a0 as ih =>
    intro bs h a ha
    rw [mapExcept] at h
    cases hfa : f a0 with
    | error e => rw [hfa] at h; exact absurd h (by simp)
    | ok b0 =>
      rw [hfa] at h
      cases hm : mapExcept f as with
      | error e => rw [hm] at h; exact absurd h (by simp)
      | ok bs' =>
        rw [hm] at h
        cases h
        rcases List.mem_cons.mp ha with rfl | has
        · exact ⟨b0, List.mem_cons_self _ _, hfa⟩
        · obtain ⟨b, hb, hfb⟩ := ih bs' hm a has
          exact ⟨b, List.mem_cons_of_mem _ hb, hfb⟩

lemma mapExcept_ok_of_forall {ε α β : Type} (f : α → Except ε β) :
    ∀ l : List α, (∀ a ∈ l, ∃ b, f a = .ok b) →
      ∃ bs, mapExcept f l = .ok bs := by
  intro l
  induction l with
  | nil => intro _; exact ⟨[], rfl⟩
  | cons a as ih =>
    intro h
    obtain ⟨b, hb⟩ := h a (List.mem_cons_self a as)
    obtain ⟨bs, hbs⟩ := ih (fun a' ha' => h a' (List.mem_cons_of_mem _ ha'))
    exact ⟨b :: bs, by rw [mapExcept, hb, hbs]⟩

lemma mem_rowMajor (w h x y : Nat) :
    (x, y) ∈ LayoutGenerator.rowMajor w h ↔ x < w ∧ y < h := by
  constructor
  · intro hm
    obtain ⟨y', hy', hx⟩ := List.mem_flatMap.mp hm
    obtain ⟨x', hx', hxy⟩ := List.mem_map.mp hx
    injection hxy with h1 h2
    subst h1; subst h2
    exact ⟨List.mem_range.mp hx', List.mem_range.mp hy'⟩
  · rintro ⟨hx, hy⟩
    refine List.mem_flatMap.mpr ⟨y, List.mem_range.mpr hy, ?_⟩
    exact List.mem_map.mpr ⟨x, List.mem_range.mpr hx, rfl⟩

lemma rowMajor_length (w h : Nat) :
    (LayoutGenerator.rowMajor w h).length = h * w := by
  rw [LayoutGenerator.rowMajor, List.length_flatMap]
  induction h with
  | zero => simp
  | succ n ih => simp [List.range_succ, ih, Nat.succ_mul]

lemma makeCell_ok_coords (pal : LegoPalette) (mask : LandSeaMask) (img : Img)
    (xy : Nat × Nat) (p : PositionPlacement)
    (h : LayoutGenerator.makeCell pal mask img xy = .ok p) :
    p.x = (xy.1 : Int) ∧ p.y = (xy.2 : Int) := by
  simp only [LayoutGenerator.makeCell] at h
  cases hc : LayoutGenerator.rgbToColor pal (img.pix xy.1 xy.2) with
  | none => rw [hc] at h; exact absurd h (by simp)
  | some color =>
    rw [hc] at h
    dsimp only at h
    cases hl : mask.is_land xy.1 xy.2 with
    | error e => rw [hl] at h; exact absurd h (by simp)
    | ok isLand =>
      rw [hl] at h
      dsimp only at h
      cases hmk : mkPositionPlacement xy.1 xy.2
          (LayoutGenerator.make_color_id color.name) color.name
          (toString color.id) (if isLand then "brick" else "tile")
          (if isLand then "3062b" else "98138") with
      | error e => rw [hmk] at h; exact absurd h (by simp)
      | ok q =>
        rw [hmk] at h
        dsimp only at h
        cases h
        obtain ⟨-, -, -, hq⟩ := (mkPositionPlacement_ok_iff _ _ _ _ _ _ _ _).mp hmk
        rw [hq]
        exact ⟨rfl, rfl⟩

lemma makeCell_good (xy : Nat × Nat) (hx : xy.1 < 128) (hy : xy.2 < 80) :
    ∃ p, LayoutGenerator.makeCell wRedPalette wOceanMask wGoodImg xy = .ok p := by
  simp only [LayoutGenerator.makeCell]
  have hc : LayoutGenerator.rgbToColor wRedPalette (wGoodImg.pix xy.1 xy.2) =
      some ⟨1, "Red", (255, 0, 0), "#B40000"⟩ := rfl
  rw [hc]
  have hl : wOceanMask.is_land xy.1 xy.2 = .ok false := by
    rw [LandSeaMask.is_land, if_neg (by dsimp only [wOceanMask]; omega),
      if_neg (by dsimp only [wOceanMask]; omega)]
    simp [wOceanMask]
  rw [hl]
  have hmk : mkPositionPlacement (xy.1 : Int) (xy.2 : Int)
      (LayoutGenerator.make_color_id "Red") "Red" (toString (1 : Int))
      "tile" "98138" = .ok ⟨xy.1, xy.2, LayoutGenerator.make_color_id "Red",
        "Red", toString (1 : Int), "tile", "98138"⟩ :=
    (mkPositionPlacement_ok_iff _ _ _ _ _ _ _ _).mpr
      ⟨Int.natCast_nonneg _, Int.natCast_nonneg _, Or.inr ⟨rfl, rfl⟩, rfl⟩
  simp only [if_neg Bool.false_ne_true]
  rw [hmk]
  exact ⟨_, rfl⟩

lemma validateColors_good :
    ∃ u, LayoutGenerator.validateColors wRedPalette wGoodImg = .ok u :=
  mapExcept_ok_of_forall _ _ (fun _ _ => ⟨(), rfl⟩)

lemma generate_good :
    ∃ g, LayoutGenerator.generate wRedPalette wOceanMask wGoodImg
      "img.png" "t" = .ok g := by
  obtain ⟨u, hu⟩ := validateColors_good
  obtain ⟨ps, hps⟩ := mapExcept_ok_of_forall
    (LayoutGenerator.makeCell wRedPalette wOceanMask wGoodImg)
    (LayoutGenerator.rowMajor LayoutGenerator.EXPECTED_WIDTH
      LayoutGenerator.EXPECTED_HEIGHT)
    (fun xy hxy => makeCell_good xy ((mem_rowMajor _ _ _ _).mp
        (by exact hxy)).1
      ((mem_rowMajor _ _ _ _).mp (by exact hxy)).2)
  rw [LayoutGenerator.generate, if_neg (by decide), hu, hps]
  exact ⟨_, rfl⟩

/-- C7: an image whose dimensions differ from the expected 128×80 makes
`generate` fail immediately with an error carrying both the actual and the
expected dimensions; and whenever `generate` returns a grid, the grid is
complete — one placement per cell of the 128×80 grid, never a partial
fill. -/
theorem generate_all_or_nothing :
    (∀ (pal : LegoPalette) (mask : LandSeaMask) (img : Img) (src now : String),
      img.width ≠ 128 ∨ img.height ≠ 80 →
      LayoutGenerator.generate pal mask img src now =
        .error (.dimensionMismatch img.width img.height 128 80)) ∧
    (∀ (pal : LegoPalette) (mask : LandSeaMask) (img : Img) (src now : String)
      (g : PositionPlacementGrid),
      LayoutGenerator.generate pal mask img src now = .ok g →
      g.width = 128 ∧ g.height = 80 ∧ g.positions.length = 128 * 80 ∧
      ∀ x y : Nat, x < 128 → y < 80 →
        ∃ p ∈ g.positions, p.x = (x : Int) ∧ p.y = (y : Int)) := by
  constructor
  · intro pal mask img src now h
    have h' : img.width ≠ LayoutGenerator.EXPECTED_WIDTH ∨
        img.height ≠ LayoutGenerator.EXPECTED_HEIGHT := h
    rw [LayoutGenerator.generate, if_pos h']
    rfl
  · intro pal mask img src now g h
    rw [LayoutGenerator.generate] at h
    by_cases hdim : img.width ≠ LayoutGenerator.EXPECTED_WIDTH ∨
        img.height ≠ LayoutGenerator.EXPECTED_HEIGHT
    · rw [if_pos hdim] at h
      exact absurd h (by simp)
    · rw [if_neg hdim] at h
      cases hvc : LayoutGenerator.validateColors pal img with
      | error e => rw [hvc] at h; exact absurd h (by simp)
      | ok u =>
        rw [hvc] at h
        cases hmc : mapExcept (LayoutGenerator.makeCell pal mask img)
            (LayoutGenerator.rowMajor LayoutGenerator.EXPECTED_WIDTH
              LayoutGenerator.EXPECTED_HEIGHT) with
        | error e => rw [hmc] at h; exact absurd h (by simp)
        | ok positions =>
          rw [hmc] at h
          cases h
          refine ⟨rfl, rfl, ?_, ?_⟩
          · rw [mapExcept_ok_length _ _ _ hmc, rowMajor_length]
            rfl
          · intro x y hx hy
            obtain ⟨p, hp, hfp⟩ := mapExcept_ok_mem _ _ _ hmc (x, y)
              ((mem_rowMajor _ _ _ _).mpr ⟨hx, hy⟩)
            exact ⟨p, hp, makeCell_ok_coords _ _ _ _ _ hfp⟩

/-- Witness for C7: a 100×80 image is rejected with the dimension error,
and a valid one-color 128×80 image generates a complete grid. -/
theorem generate_all_or_nothing_witness :
    ((100 : Nat) ≠ 128 ∨ (80 : Nat) ≠ 80) ∧
    LayoutGenerator.generate wEmptyPalette wOceanMask wBadImg "s" "t" =
      .error (.dimensionMismatch 100 80 128 80) ∧
    ∃ g, LayoutGenerator.generate wRedPalette wOceanMask wGoodImg
        "img.png" "t" = .ok g ∧
      (g.width = 128 ∧ g.height = 80 ∧ g.positions.length = 128 * 80 ∧
        ∀ x y : Nat, x < 128 → y < 80 →
          ∃ p ∈ g.positions, p.x = (x : Int) ∧ p.y = (y : Int)) := by
  obtain ⟨g, hg⟩ := generate_good
  exact ⟨Or.inl (by decide),
    generate_all_or_nothing.1 wEmptyPalette wOceanMask wBadImg "s" "t"
      (Or.inl (by decide)),
    g, hg, generate_all_or_nothing.2 _ _ _ _ _ g hg⟩

/-! ## C2 — CIEDE2000 is symmetric and zero on the diagonal -/

lemma gFactor_comm (p q : Lab) : gFactor p q = gFactor q p := by
  unfold gFactor
  rw [add_comm (chroma p) (chroma q)]

lemma deltaLp_swap (p q : Lab) : deltaLp q p = -deltaLp p q := by
  unfold deltaLp; ring

lemma deltaCp_swap (p q : Lab) : deltaCp q p = -deltaCp p q := by
  unfold deltaCp
  rw [gFactor_comm q p]
  ring

lemma hDiff_swap (p q : Lab) : hDiff q p = -hDiff p q := by
  unfold hDiff
  rw [gFactor_comm q p]
  ring

lemma hSum_swap (p q : Lab) : hSum q p = hSum p q := by
  unfold hSum
  rw [gFactor_comm q p]
  ring

lemma lAvg_swap (p q : Lab) : lAvg q p = lAvg p q := by
  unfold lAvg; ring

lemma cAvgP_swap (p q : Lab) : cAvgP q p = cAvgP p q := by
  unfold cAvgP
  rw [gFactor_comm q p]
  ring

lemma dhSmall_swap (p q : Lab) : dhSmall q p = -dhSmall p q := by
  unfold dhSmall
  rw [gFactor_comm q p, hDiff_swap,
    mul_comm (cPrimeOf (gFactor p q) q) (cPrimeOf (gFactor p q) p)]
  by_cases hcc : cPrimeOf (gFactor p q) p * cPrimeOf (gFactor p q) q = 0
  · rw [if_pos hcc, if_pos hcc, neg_zero]
  · rw [if_neg hcc, if_neg hcc]
    by_cases h1 : |hDiff p q| ≤ 180
    · rw [if_pos (by rwa [abs_neg]), if_pos h1]
    · rw [if_neg (by rwa [abs_neg]), if_neg h1]
      have h1' : 180 < |hDiff p q| := lt_of_not_le h1
      by_cases h2 : hDiff p q > 180
      · rw [if_neg (by linarith), if_pos h2]
        ring
      · have hd2 : hDiff p q < -180 := by
          rcases lt_abs.mp h1' with h | h
          · exact absurd h h2
          · linarith
        rw [if_pos (by linarith), if_neg h2]
        ring

lemma hAvg_swap (p q : Lab) : hAvg q p = hAvg p q := by
  unfold hAvg
  rw [gFactor_comm q p, hDiff_swap, hSum_swap,
    mul_comm (cPrimeOf (gFactor p q) q) (cPrimeOf (gFactor p q) p)]
  by_cases hcc : cPrimeOf (gFactor p q) p * cPrimeOf (gFactor p q) q = 0
  · rw [if_pos hcc, if_pos hcc]
  · rw [if_neg hcc, if_neg hcc]
    by_cases h1 : |hDiff p q| ≤ 180
    · rw [if_pos (by rwa [abs_neg]), if_pos h1]
    · rw [if_neg (by rwa [abs_neg]), if_neg h1]

lemma radians_neg (x : ℝ) : radians (-x) = -radians x := by
  unfold radians; ring

lemma dHBig_swap (p q : Lab) : dHBig q p = -dHBig p q := by
  unfold dHBig
  rw [gFactor_comm q p, dhSmall_swap,
    mul_comm (cPrimeOf (gFactor p q) q) (cPrimeOf (gFactor p q) p),
    neg_div, radians_neg, Real.sin_neg]
  ring

lemma tFactor_swap (p q : Lab) : tFactor q p = tFactor p q := by
  unfold tFactor
  rw [hAvg_swap]

lemma slW_swap (p q : Lab) : slW q p = slW p q := by
  unfold slW
  rw [lAvg_swap]

lemma scW_swap (p q : Lab) : scW q p = scW p q := by
  unfold scW
  rw [cAvgP_swap]

lemma shW_swap (p q : Lab) : shW q p = shW p q := by
  unfold shW
  rw [cAvgP_swap, tFactor_swap]

lemma rtFactor_swap (p q : Lab) : rtFactor q p = rtFactor p q := by
  unfold rtFactor deltaTheta rcFactor
  rw [hAvg_swap, cAvgP_swap]

lemma delta_e_2000_symm (p q : Lab) (kL kC kH : ℝ) :
    delta_e_2000 q p kL kC kH = delta_e_2000 p q kL kC kH := by
  unfold delta_e_2000
  rw [deltaLp_swap, deltaCp_swap, dHBig_swap, slW_swap, scW_swap, shW_swap,
    rtFactor_swap]
  apply congrArg
  ring

lemma delta_e_2000_self (p : Lab) (kL kC kH : ℝ) :
    delta_e_2000 p p kL kC kH = 0 := by
  have h1 : deltaLp p p = 0 := sub_self _
  have h2 : deltaCp p p = 0 := sub_self _
  have h3 : dhSmall p p = 0 := by
    unfold dhSmall
    have hd : hDiff p p = 0 := sub_self _
    by_cases hcc : cPrimeOf (gFactor p p) p * cPrimeOf (gFactor p p) p = 0
    · rw [if_pos hcc]
    · rw [if_neg hcc, if_pos (by rw [hd]; norm_num), hd]
  have h4 : dHBig p p = 0 := by
    unfold dHBig
    rw [h3]
    have : radians (0 / 2) = 0 := by unfold radians; ring
    rw [this, Real.sin_zero, mul_zero]
  unfold delta_e_2000
  rw [h1, h2, h4]
  simp [Real.sqrt_zero]

/-- C2: CIEDE2000 at the default weights is symmetric — exactly, hence in
particular within the 1e-5 tolerance — and zero for identical colors. -/
theorem delta_e_2000_symm_and_zero :
    ∀ p q : Lab,
      delta_e_2000 p q 1 1 1 = delta_e_2000 q p 1 1 1 ∧
      |delta_e_2000 p q 1 1 1 - delta_e_2000 q p 1 1 1| ≤ 1e-5 ∧
      delta_e_2000 p p 1 1 1 = 0 := by
  intro p q
  have hs := delta_e_2000_symm p q 1 1 1
  refine ⟨hs.symm, ?_, delta_e_2000_self p 1 1 1⟩
  rw [hs, sub_self, abs_zero]
  norm_num

/-! ## C1 — every quantized pixel is a palette color -/

lemma u8RGB_eq_self {rgb : Int × Int × Int} (h : rgbInRange rgb) :
    u8RGB rgb = rgb := by
  obtain ⟨h1, h2, h3, h4, h5, h6⟩ := h
  unfold u8RGB u8
  obtain ⟨r, g, b⟩ := rgb
  simp only [Prod.mk.injEq]
  exact ⟨Int.emod_eq_of_lt h1 h2, Int.emod_eq_of_lt h3 h4,
    Int.emod_eq_of_lt h5 h6⟩

lemma argminIdx_lt_length : ∀ l : List ℝ, l ≠ [] → argminIdx l < l.length := by
  intro l
  induction l with
  | nil => intro h; exact absurd rfl h
  | cons x xs ih =>
    intro _
    cases xs with
    | nil => simp [argminIdx]
    | cons y rest =>
      have h' := ih (by simp)
      simp only [argminIdx]
      split_ifs <;> simp only [List.length_cons] at h' ⊢ <;> omega

lemma closestIndicesBatched_eq_map (pal : LegoPalette) :
    ∀ labs : List Lab, closestIndicesBatched pal labs =
      labs.map (fun lab => argminIdx (distancesTo pal lab)) := by
  intro labs
  induction labs using closestIndicesBatched.induct pal with
  | case1 => simp [closestIndicesBatched]
  | case2 lab0 rest ih =>
    rw [closestIndicesBatched, ih, ← List.map_append, List.take_append_drop]

lemma mem_uniqueColors (img : Img) (x y : Nat) (hx : x < img.width)
    (hy : y < img.height) : u8RGB (img.pix x y) ∈ uniqueColors img := by
  unfold uniqueColors
  rw [(List.mergeSort_perm _ rgbLexLe).mem_iff, List.mem_dedup]
  refine List.mem_map.mpr ⟨img.pix x y, ?_, rfl⟩
  unfold pixelList
  exact List.mem_map.mpr ⟨(x, y), (mem_rowMajor _ _ _ _).mpr ⟨hx, hy⟩, rfl⟩

lemma distancesTo_ne_nil {pal : LegoPalette} (hne : pal.colors ≠ [])
    (lab : Lab) : distancesTo pal lab ≠ [] := by
  intro h0
  apply hne
  unfold distancesTo paletteLab at h0
  exact List.map_eq_nil_iff.mp (List.map_eq_nil_iff.mp h0)

lemma distancesTo_length (pal : LegoPalette) (lab : Lab) :
    (distancesTo pal lab).length = pal.colors.length := by
  simp [distancesTo, paletteLab]

/-- The quantized value of one `uint8` color: the `uint8` palette RGB at
the `argmin` of the CIEDE2000 distances. -/
lemma quantizeCore_pix (pal : LegoPalette) (img : Img) (x y : Nat)
    (hmem : u8RGB (img.pix x y) ∈ uniqueColors img) :
    (quantizeCore pal img).image.pix x y =
      (paletteRGBu8 pal).getD
        (argminIdx (distancesTo pal (labOfRGB (u8RGB (img.pix x y))))) (0, 0, 0) := by
  have hiu : idxOf (u8RGB (img.pix x y)) (uniqueColors img) <
      (uniqueColors img).length := List.indexOf_lt_length.mpr hmem
  have hpix : (quantizeCore pal img).image.pix x y =
      ((closestIndicesBatched pal ((uniqueColors img).map labOfRGB)).map
        (fun i => (paletteRGBu8 pal).getD i (0, 0, 0))).getD
        (idxOf (u8RGB (img.pix x y)) (uniqueColors img)) (0, 0, 0) := rfl
  rw [hpix, closestIndicesBatched_eq_map, List.map_map, List.map_map]
  simp only [idxOf] at hiu ⊢
  rw [List.getD_eq_getElem _ _ (by simpa using hiu), List.getElem_map,
    List.getElem_indexOf hiu]
  rfl

/-- C1: whenever `quantize` returns a result (the palette is nonempty) and
every palette color's RGB channels are in the `uint8` range `[0, 255]`,
every pixel of the output image equals the RGB triple of some palette
color. -/
theorem quantize_output_in_palette :
    ∀ (pal : LegoPalette) (img : Img) (res : QuantizationResult),
      pal.colors ≠ [] →
      (∀ c ∈ pal.colors, rgbInRange c.rgb) →
      quantize pal img = some res →
      ∀ x y : Nat, x < img.width → y < img.height →
        ∃ c ∈ pal.colors, res.image.pix x y = c.rgb := by
  intro pal img res hne hrange hq x y hx hy
  have hres : res = quantizeCore pal img := by
    rw [quantize, if_neg (by simpa [List.isEmpty_iff] using hne)] at hq
    exact (Option.some_inj.mp hq).symm
  subst hres
  have hmem := mem_uniqueColors img x y hx hy
  rw [quantizeCore_pix pal img x y hmem]
  have hj : argminIdx (distancesTo pal (labOfRGB (u8RGB (img.pix x y)))) <
      pal.colors.length := by
    have := argminIdx_lt_length _ (distancesTo_ne_nil hne
      (labOfRGB (u8RGB (img.pix x y))))
    rwa [distancesTo_length] at this
  refine ⟨pal.colors.get ⟨argminIdx (distancesTo pal
      (labOfRGB (u8RGB (img.pix x y)))), hj⟩, ?_, ?_⟩
  · rw [List.get_eq_getElem]
    exact List.getElem_mem hj
  · unfold paletteRGBu8
    rw [List.getD_eq_getElem _ _ (by simpa using hj), List.getElem_map,
      List.get_eq_getElem]
    exact u8RGB_eq_self (hrange _ (List.getElem_mem hj))

/-- Witness for C1: a nonempty in-range palette, a 1×1 image; the single
output pixel is a palette RGB. -/
theorem quantize_output_in_palette_witness :
    wRedPalette.colors ≠ [] ∧
    (∀ c ∈ wRedPalette.colors, rgbInRange c.rgb) ∧
    ∃ c ∈ wRedPalette.colors,
      (quantizeCore wRedPalette wQuantImg).image.pix 0 0 = c.rgb :=
  ⟨by decide, by decide,
    quantize_output_in_palette wRedPalette wQuantImg
      (quantizeCore wRedPalette wQuantImg) (by decide) (by decide) rfl
      0 0 (by decide) (by decide)⟩

/-! ## C5 — the batched loop agrees with `find_closest_color` -/

lemma argminIdx_le : ∀ (l : List ℝ) (j : Nat), j < l.length →
    l.getD (argminIdx l) 0 ≤ l.getD j 0 := by
  intro l
  induction l with
  | nil => intro j hj; simp at hj
  | cons x xs ih =>
    intro j hj
    cases xs with
    | nil =>
      have hj0 : j = 0 := by simpa using hj
      subst hj0
      simp [argminIdx]
    | cons y rest =>
      simp only [argminIdx]
      by_cases hlt : (y :: rest).getD (argminIdx (y :: rest)) 0 < x
      · rw [if_pos hlt]
        cases j with
        | zero =>
          simp only [List.getD_cons_succ, List.getD_cons_zero]
          linarith
        | succ j' =>
          simp only [List.getD_cons_succ]
          exact ih j' (by simpa using hj)
      · rw [if_neg hlt]
        have hxv := le_of_not_lt hlt
        cases j with
        | zero => simp
        | succ j' =>
          simp only [List.getD_cons_zero, List.getD_cons_succ]
          exact le_trans hxv (ih j' (by simpa using hj))

lemma argminIdx_first : ∀ (l : List ℝ) (j : Nat), j < l.length →
    l.getD j 0 ≤ l.getD (argminIdx l) 0 → argminIdx l ≤ j := by
  intro l
  induction l with
  | nil => intro j hj; simp at hj
  | cons x xs ih =>
    intro j hj hle
    cases xs with
    | nil => simp [argminIdx]
    | cons y rest =>
      simp only [argminIdx] at hle ⊢
      by_cases hlt : (y :: rest).getD (argminIdx (y :: rest)) 0 < x
      · rw [if_pos hlt] at hle ⊢
        cases j with
        | zero =>
          exfalso
          simp only [List.getD_cons_succ, List.getD_cons_zero] at hle
          linarith
        | succ j' =>
          simp only [List.getD_cons_succ] at hle
          exact Nat.succ_le_succ (ih j' (by simpa using hj) hle)
      · rw [if_neg hlt]
        exact Nat.zero_le j

lemma zip_self_map {α β : Type} (h : α → β) :
    ∀ l : List α, l.zip (l.map h) = l.map (fun a => (a, h a)) := by
  intro l
  induction l with
  | nil => rfl
  | cons a as ih => simp [ih]

lemma find?_eq_self {α : Type} [DecidableEq α] (u : α) :
    ∀ l : List α, u ∈ l → l.find? (fun a => a = u) = some u := by
  intro l
  induction l with
  | nil => intro h; exact absurd h (List.not_mem_nil u)
  | cons a as ih =>
    intro h
    by_cases hau : a = u
    · subst hau
      exact List.find?_cons_of_pos _ (by simp)
    · rw [List.find?_cons_of_neg _ (by simp [hau])]
      apply ih
      rcases List.mem_cons.mp h with h1 | h1
      · exact absurd h1.symm hau
      · exact h1

/-- C5: for every distinct (`uint8`) color of the image, the palette color
recorded by the batched closest-index loop in `quantize` equals the color
returned by `find_closest_color` for that RGB triple, and the shared
`argmin` index is minimal-distance and, on exact ties, the first palette
index attaining the minimum (first occurrence in palette order). -/
theorem quantize_batched_matches_find_closest :
    ∀ (pal : LegoPalette) (img : Img), pal.colors ≠ [] →
      ∀ u ∈ uniqueColors img,
        ((quantizeMapping pal img).find? (fun e => e.1 = u)).map
            (fun e => e.2) = find_closest_color pal u ∧
        (∀ j < (distancesTo pal (labOfRGB u)).length,
          (distancesTo pal (labOfRGB u)).getD
            (argminIdx (distancesTo pal (labOfRGB u))) 0 ≤
            (distancesTo pal (labOfRGB u)).getD j 0) ∧
        (∀ j < (distancesTo pal (labOfRGB u)).length,
          (distancesTo pal (labOfRGB u)).getD j 0 =
            (distancesTo pal (labOfRGB u)).getD
              (argminIdx (distancesTo pal (labOfRGB u))) 0 →
          argminIdx (distancesTo pal (labOfRGB u)) ≤ j) := by
  intro pal img hne u hu
  refine ⟨?_, fun j hj => argminIdx_le _ j hj,
    fun j hj hle => argminIdx_first _ j hj hle.le⟩
  have hj : argminIdx (distancesTo pal (labOfRGB u)) < pal.colors.length := by
    have := argminIdx_lt_length _ (distancesTo_ne_nil hne (labOfRGB u))
    rwa [distancesTo_length] at this
  unfold quantizeMapping
  rw [closestIndicesBatched_eq_map, List.map_map, zip_self_map, List.map_map,
    List.find?_map]
  have hpred : ((fun e : (Int × Int × Int) × LegoColor => decide (e.1 = u)) ∘
      ((fun ui : (Int × Int × Int) × Nat =>
          (ui.1, pal.colors.getD ui.2 ⟨0, "", (0, 0, 0), ""⟩)) ∘
        fun a => (a, ((fun lab => argminIdx (distancesTo pal lab)) ∘ labOfRGB) a)))
      = fun a => decide (a = u) := rfl
  rw [hpred, find?_eq_self u _ hu]
  rw [find_closest_color, List.get?_eq_getElem?, List.getElem?_eq_getElem hj]
  simp only [Option.map_some', Function.comp]
  rw [List.getD_eq_getElem _ _ hj]

/-- Witness for C5 on a 1×1 image whose single color is `(3, 7, 9)`. -/
theorem quantize_batched_matches_find_closest_witness :
    wRedPalette.colors ≠ [] ∧ (3, 7, 9) ∈ uniqueColors wQuantImg ∧
    (((quantizeMapping wRedPalette wQuantImg).find?
        (fun e => e.1 = ((3, 7, 9) : Int × Int × Int))).map (fun e => e.2)
      = find_closest_color wRedPalette (3, 7, 9) ∧
      (∀ j < (distancesTo wRedPalette (labOfRGB (3, 7, 9))).length,
        (distancesTo wRedPalette (labOfRGB (3, 7, 9))).getD
          (argminIdx (distancesTo wRedPalette (labOfRGB (3, 7, 9)))) 0 ≤
          (distancesTo wRedPalette (labOfRGB (3, 7, 9))).getD j 0) ∧
      (∀ j < (distancesTo wRedPalette (labOfRGB (3, 7, 9))).length,
        (distancesTo wRedPalette (labOfRGB (3, 7, 9))).getD j 0 =
          (distancesTo wRedPalette (labOfRGB (3, 7, 9))).getD
            (argminIdx (distancesTo wRedPalette (labOfRGB (3, 7, 9)))) 0 →
        argminIdx (distancesTo wRedPalette (labOfRGB (3, 7, 9))) ≤ j)) :=
  ⟨by decide,
    by
      have h := mem_uniqueColors wQuantImg 0 0 (by decide) (by decide)
      rwa [show u8RGB (wQuantImg.pix 0 0) = ((3, 7, 9) : Int × Int × Int)
        from by decide] at h,
    quantize_batched_matches_find_closest wRedPalette wQuantImg (by decide)
      (3, 7, 9)
      (by
        have h := mem_uniqueColors wQuantImg 0 0 (by decide) (by decide)
        rwa [show u8RGB (wQuantImg.pix 0 0) = ((3, 7, 9) : Int × Int × Int)
          from by decide] at h)⟩

/-- Witness for the amended C3 at a concrete 1×1 grid and empty kit. -/
theorem validate_buildability_score_witness :
    (0 < wSmallGrid.total_positions) ∧
    ((wSmallGrid.positions.length : Int) ≤ wSmallGrid.total_positions) ∧
    (((LayoutValidator.validate wEmptyKit wEmptyPalette wSmallGrid "f" "t").buildable
        = true ↔
      (LayoutValidator.validate wEmptyKit wEmptyPalette wSmallGrid "f" "t").violations
        = []) ∧
     ((LayoutValidator.validate wEmptyKit wEmptyPalette wSmallGrid "f" "t").violations
        = [] →
      (LayoutValidator.validate wEmptyKit wEmptyPalette wSmallGrid "f" "t").buildability_score
        = 1) ∧
     ((LayoutValidator.validate wEmptyKit wEmptyPalette wSmallGrid "f" "t").violations
        ≠ [] →
      (LayoutValidator.validate wEmptyKit wEmptyPalette wSmallGrid "f" "t").buildable
        = false ∧
      (LayoutValidator.validate wEmptyKit wEmptyPalette wSmallGrid "f" "t").buildability_score
        < 1) ∧
     (LayoutValidator.validate wEmptyKit wEmptyPalette wSmallGrid "f" "t").buildability_score
        = ((wSmallGrid.total_positions : ℚ) -
            ((((LayoutValidator.validate wEmptyKit wEmptyPalette wSmallGrid "f" "t").violations.map
              LayoutValidator.violationWeight).sum : Int) : ℚ)) /
            ((wSmallGrid.total_positions : Int) : ℚ) ∧
     0 ≤ (LayoutValidator.validate wEmptyKit wEmptyPalette wSmallGrid "f" "t").buildability_score ∧
     (LayoutValidator.validate wEmptyKit wEmptyPalette wSmallGrid "f" "t").buildability_score
        ≤ 1) :=
  ⟨by decide, by decide,
    validate_buildability_score wEmptyKit wEmptyPalette wSmallGrid "f" "t"
      (by decide) (by decide) (by decide) (by decide)⟩

end LegoProc
